import Mathlib

/-!
Verification of the parser-potato streaming ingestion pipeline.

The development shallowly embeds the core services of the repository:

* `app/services/file_parser.py` — format detection, CSV decoding via
  `csv.DictReader`, JSON / NDJSON decoding, and fixed-size chunking;
* `app/services/data_loader.py` — record classification
  (`identify_table_type`), per-kind preparation (`prepare_*_data`),
  validation against the pydantic schemas of `app/schemas/__init__.py`,
  relationship verification, and batched persistence;
* `app/api/upload.py` — the per-chunk control loop that gates persistence
  on an empty error list and aggregates counts for the caller.

Python dictionaries are embedded as association lists built with a
replace-on-duplicate insert, numbers as rationals, and the relational
store as four lists of typed rows.  The SQLAlchemy session is created
with the default `autoflush=True` (see `app/database.py`), so a pending
`session.add` is visible to every later existence-check `select` of the
same chunk; the store model therefore makes inserts immediately visible.
-/

/-- A parsed `datetime.datetime` value (second precision, as produced by
the `strptime` formats used in `prepare_order_data`). -/
structure PyDateTime where
  year : Nat
  month : Nat
  day : Nat
  hour : Nat
  minute : Nat
  second : Nat
deriving DecidableEq, Repr

/-- An untyped Python value as it occurs in decoded records: JSON
scalars, arrays and objects, plus `None` and `datetime` (the latter is
only introduced by `prepare_order_data`).  Objects are association
lists; building them goes through `dictOfPairs` so that duplicate keys
keep the last value, as Python dictionaries do. -/
inductive JVal where
  | jNull : JVal
  | jBool : Bool → JVal
  | jNum : ℚ → JVal
  | jStr : String → JVal
  | jArr : List JVal → JVal
  | jObj : List (String × JVal) → JVal
  | jDate : PyDateTime → JVal

/-- A decoded row: a Python `dict` from field name to value. -/
abbrev RawRecord := List (String × JVal)

/-- Python `dict.get(k)`: the value stored under `k`, if present. -/
def rget (r : RawRecord) (k : String) : Option JVal :=
  match r with
  | [] => none
  | (k', v) :: rest => if k' = k then some v else rget rest k

/-- Python `dict.get(k, d)`: lookup with an explicit default. -/
def rgetOr (r : RawRecord) (k : String) (d : JVal) : JVal :=
  (rget r k).getD d

/-- Python `dict.get(k)` with its implicit `None` default. -/
def rgetD (r : RawRecord) (k : String) : JVal :=
  rgetOr r k JVal.jNull

/-- Python `dict.keys()` of a record (possibly with duplicates when the
association list was not built through `dictOfPairs`; all consumers use
it only through membership, mirroring `set(record.keys())`). -/
def recordKeys (r : RawRecord) : List String :=
  r.map Prod.fst

/-- Python `d[k] = v` on a dictionary: replace the existing binding or
append a new one. -/
def dictInsert (r : RawRecord) (k : String) (v : JVal) : RawRecord :=
  match r with
  | [] => [(k, v)]
  | (k', v') :: rest =>
      if k' = k then (k, v) :: rest else (k', v') :: dictInsert rest k v

/-- Build a Python dictionary from a sequence of key/value pairs
(later pairs overwrite earlier ones, as in a dict literal, a dict
comprehension, or `json` object decoding). -/
def dictOfPairs (ps : List (String × JVal)) : RawRecord :=
  ps.foldl (fun r p => dictInsert r p.1 p.2) []

/-- Condition of `data_loader.py:33-35`: the key set names a customer. -/
def customerRule (ks : List String) : Prop :=
  "customer_id" ∈ ks ∧ "email" ∈ ks ∧ "order_id" ∉ ks ∧ "product_id" ∉ ks

/-- Condition of `data_loader.py:38-40`: the key set names a product. -/
def productRule (ks : List String) : Prop :=
  "product_id" ∈ ks ∧ "price" ∈ ks ∧ "customer_id" ∉ ks ∧ "order_id" ∉ ks

/-- Condition of `data_loader.py:43`: the key set names an order item. -/
def orderItemRule (ks : List String) : Prop :=
  "order_id" ∈ ks ∧ "product_id" ∈ ks ∧ "quantity" ∈ ks

/-- Condition of `data_loader.py:47`: the key set names an order. -/
def orderRule (ks : List String) : Prop :=
  "order_id" ∈ ks ∧ "customer_id" ∈ ks ∧ "order_date" ∈ ks

instance (ks : List String) : Decidable (customerRule ks) := by
  unfold customerRule; infer_instance

instance (ks : List String) : Decidable (productRule ks) := by
  unfold productRule; infer_instance

instance (ks : List String) : Decidable (orderItemRule ks) := by
  unfold orderItemRule; infer_instance

instance (ks : List String) : Decidable (orderRule ks) := by
  unfold orderRule; infer_instance

/-- Decision chain of `DataLoaderService.identify_table_type`
(`data_loader.py:24-50`) on a key set.  Each source `if` whose inner
guard fails falls through to the next check, so the nested source
conditionals are exactly this first-match chain. -/
def identifyKeys (ks : List String) : Option String :=
  if customerRule ks then some "customer"
  else if productRule ks then some "product"
  else if orderItemRule ks then some "order_item"
  else if orderRule ks then some "order"
  else none

/-- `DataLoaderService.identify_table_type(record)`: classify a record
by `set(record.keys())`. -/
def identify_table_type (r : RawRecord) : Option String :=
  identifyKeys (recordKeys r)

/-- Default chunk size (`FileParserService.CHUNK_SIZE`). -/
def CHUNK_SIZE : Nat := 1000

/-- Loop of `FileParserService.chunk_records` (`file_parser.py:104-117`):
accumulate records in `buf`, emit the buffer whenever it reaches
`chunkSize`, and emit a final partial buffer when nonempty. -/
def chunkLoop (chunkSize : Nat) : List α → List α → List (List α)
  | [], buf => if buf.isEmpty then [] else [buf]
  | r :: rs, buf =>
      let buf' := buf ++ [r]
      if chunkSize ≤ buf'.length then buf' :: chunkLoop chunkSize rs []
      else chunkLoop chunkSize rs buf'

/-- `FileParserService.chunk_records(records, chunk_size)`. -/
def chunk_records (records : List α) (chunkSize : Nat) : List (List α) :=
  chunkLoop chunkSize records []

/-- Structural specification of chunking used to reason about
`chunk_records`: take `c` records at a time. -/
def chunksOf (c : Nat) : List α → List (List α)
  | [] => []
  | x :: xs => (x :: xs).take (max c 1) :: chunksOf c ((x :: xs).drop (max c 1))
termination_by l => l.length
decreasing_by
  simp only [List.length_drop, List.length_cons]
  have : 1 ≤ max c 1 := le_max_right c 1
  omega

/-- Python truthiness of a value, as used by the conditional expression
in `prepare_product_data` (`data_loader.py:72`). -/
def pyTruthy : JVal → Bool
  | JVal.jNull => false
  | JVal.jBool b => b
  | JVal.jNum q => q ≠ 0
  | JVal.jStr s => s ≠ ""
  | JVal.jArr xs => !xs.isEmpty
  | JVal.jObj fs => !fs.isEmpty
  | JVal.jDate _ => true

/-- Python type name of a value, used in `TypeError` and
`AttributeError` messages.  A rational with denominator 1 is printed as
`int`; this cannot distinguish the float `42.0` from the int `42`, which
only blurs the wording of error messages, never control flow. -/
def pyTypeName : JVal → String
  | JVal.jNull => "NoneType"
  | JVal.jBool _ => "bool"
  | JVal.jNum q => if q.den = 1 then "int" else "float"
  | JVal.jStr _ => "str"
  | JVal.jArr _ => "list"
  | JVal.jObj _ => "dict"
  | JVal.jDate _ => "datetime.datetime"

/-- Numeric value of a digit run. -/
def digitsToNat (ds : List Char) : Nat :=
  ds.foldl (fun n c => n * 10 + (c.toNat - 48)) 0

/-- Whitespace stripped by Python `str.strip()`. -/
def isPyWs (c : Char) : Bool :=
  c = ' ' ∨ c = '\t' ∨ c = '\n' ∨ c = '\r' ∨ c = Char.ofNat 11 ∨ c = Char.ofNat 12

/-- Characters of a string with leading and trailing whitespace
removed. -/
def stripChars (cs : List Char) : List Char :=
  ((cs.dropWhile isPyWs).reverse.dropWhile isPyWs).reverse

/-- Python `s.strip()`.  This and the helpers below are
structural-recursion implementations over the character list, used in
place of the position-based core `String` functions so that every
concrete pipeline run evaluates by plain kernel reduction. -/
def pyStrip (s : String) : String := String.mk (stripChars s.data)

/-- Split characters at every occurrence of a separator. -/
def splitOnChar (sep : Char) : List Char → List (List Char)
  | [] => [[]]
  | c :: rest =>
      if c = sep then [] :: splitOnChar sep rest
      else
        match splitOnChar sep rest with
        | [] => [[c]]
        | g :: gs => (c :: g) :: gs

/-- Python `s.split(sep)` for a one-character separator. -/
def strSplitOnChar (sep : Char) (s : String) : List String :=
  (splitOnChar sep s.data).map String.mk

/-- Python `s[:n]`. -/
def strTake (n : Nat) (s : String) : String := String.mk (s.data.take n)

/-- Python `s.lower()` (ASCII). -/
def lowerStr (s : String) : String := String.mk (s.data.map Char.toLower)

/-- Python `s.endswith(suf)`. -/
def strEndsWith (suf s : String) : Bool := suf.data.isSuffixOf s.data

/-- Python `s.startswith(pre)`. -/
def strStartsWith (pre s : String) : Bool := pre.data.isPrefixOf s.data


/-- Integer literal accepted by Python `int(str)`: optional surrounding
whitespace, an optional sign, then one or more digits (numeric
underscores are not modelled; no input in this development uses them). -/
def parseIntLit (s : String) : Option Int :=
  let cs := stripChars s.data
  let (sign, rest) :=
    match cs with
    | '-' :: t => ((-1 : Int), t)
    | '+' :: t => ((1 : Int), t)
    | t => ((1 : Int), t)
  if rest ≠ [] ∧ rest.all Char.isDigit then
    some (sign * (digitsToNat rest : Int))
  else none

/-- Float literal accepted by Python `float(str)`: optional surrounding
whitespace and sign, digits with an optional fractional part (at least
one digit overall) and an optional exponent.  The special spellings
`inf`/`nan` are not modelled; no input in this development uses them. -/
def parseFloatLit (s : String) : Option ℚ :=
  let cs := stripChars s.data
  let (sign, rest) :=
    match cs with
    | '-' :: t => ((-1 : Int), t)
    | '+' :: t => ((1 : Int), t)
    | t => ((1 : Int), t)
  let (ipart, rest) := (rest.takeWhile Char.isDigit, rest.dropWhile Char.isDigit)
  let (fpart, rest) :=
    match rest with
    | '.' :: t => (t.takeWhile Char.isDigit, t.dropWhile Char.isDigit)
    | t => ([], t)
  if ipart.isEmpty ∧ fpart.isEmpty then none
  else
    let num : Int := sign * ((digitsToNat ipart * 10 ^ fpart.length + digitsToNat fpart : Nat) : Int)
    let den : Nat := 10 ^ fpart.length
    match rest with
    | [] => some (mkRat num den)
    | e :: t =>
        if e = 'e' ∨ e = 'E' then
          let (esign, t2) :=
            match t with
            | '-' :: t' => ((-1 : Int), t')
            | '+' :: t' => ((1 : Int), t')
            | t' => ((1 : Int), t')
          if t2 ≠ [] ∧ t2.all Char.isDigit then
            let ev := digitsToNat t2
            if esign = 1 then some (mkRat (num * ((10 ^ ev : Nat) : Int)) den)
            else some (mkRat num (den * 10 ^ ev))
          else none
        else none

/-- Python `float(value)`: identity on numbers, numeric value of bools,
literal parsing for strings, `TypeError` for `None` and other
non-numeric objects. -/
def pyFloat : JVal → Except String ℚ
  | JVal.jNum q => .ok q
  | JVal.jBool b => .ok (if b then 1 else 0)
  | JVal.jStr s =>
      match parseFloatLit s with
      | some q => .ok q
      | none => .error ("could not convert string to float: '" ++ s ++ "'")
  | v => .error ("float() argument must be a string or a real number, not '" ++ pyTypeName v ++ "'")

/-- Python `int(value)`: truncation toward zero for numbers, 0/1 for
bools, decimal-literal parsing for strings, `TypeError` otherwise. -/
def pyInt : JVal → Except String Int
  | JVal.jNum q => .ok (Int.tdiv q.num (q.den : Int))
  | JVal.jBool b => .ok (if b then 1 else 0)
  | JVal.jStr s =>
      match parseIntLit s with
      | some n => .ok n
      | none => .error ("invalid literal for int() with base 10: '" ++ s ++ "'")
  | v => .error ("int() argument must be a string, a bytes-like object or a real number, not '" ++ pyTypeName v ++ "'")

/-- Length in days of a month of the proleptic Gregorian calendar. -/
def daysInMonth (y m : Nat) : Nat :=
  if m = 2 then
    if y % 4 = 0 ∧ (y % 100 ≠ 0 ∨ y % 400 = 0) then 29 else 28
  else if m = 4 ∨ m = 6 ∨ m = 9 ∨ m = 11 then 30
  else 31

/-- Validity of a calendar date as enforced by the `datetime.datetime`
constructor (`strptime` builds the object after its regex match). -/
def validDate (y m d : Nat) : Prop :=
  1 ≤ y ∧ y ≤ 9999 ∧ 1 ≤ m ∧ m ≤ 12 ∧ 1 ≤ d ∧ d ≤ daysInMonth y m

instance (y m d : Nat) : Decidable (validDate y m d) := by
  unfold validDate; infer_instance

/-- Consume exactly `n` leading digits. -/
def takeExactDigits (n : Nat) (cs : List Char) : Option (Nat × List Char) :=
  let ds := cs.take n
  if ds.length = n ∧ ds.all Char.isDigit then some (digitsToNat ds, cs.drop n) else none

/-- Consume one or two leading digits, greedily, subject to a range
bound on the two-digit reading — mirroring the alternation
`strptime` compiles for `%m`, `%d`, `%H`, `%M` and `%S` (two-digit
values within range are preferred, otherwise a single digit with
minimum `lo1`). -/
def takeDigits12 (lo1 hi2 : Nat) (cs : List Char) : Option (Nat × List Char) :=
  match cs with
  | c1 :: c2 :: rest =>
      if c1.isDigit ∧ c2.isDigit ∧ digitsToNat [c1, c2] ≤ hi2 then
        some (digitsToNat [c1, c2], rest)
      else if c1.isDigit ∧ lo1 ≤ digitsToNat [c1] then some (digitsToNat [c1], c2 :: rest)
      else none
  | [c1] => if c1.isDigit ∧ lo1 ≤ digitsToNat [c1] then some (digitsToNat [c1], []) else none
  | [] => none

/-- Consume one expected literal character. -/
def expectChar (c : Char) : List Char → Option (List Char)
  | c' :: rest => if c' = c then some rest else none
  | [] => none

/-- The time-of-day part `%H:%M:%S` of the first `strptime` format. -/
def parseHms (cs : List Char) : Option ((Nat × Nat × Nat) × List Char) := do
  let (h, cs) ← takeDigits12 0 23 cs
  let cs ← expectChar ':' cs
  let (mi, cs) ← takeDigits12 0 59 cs
  let cs ← expectChar ':' cs
  let (se, cs) ← takeDigits12 0 61 cs
  some ((h, mi, se), cs)

/-- One `strptime` date pattern `%Y s %m s %d` with separator `sep`. -/
def parseYmdWith (sep : Char) (cs : List Char) : Option ((Nat × Nat × Nat) × List Char) := do
  let (y, cs) ← takeExactDigits 4 cs
  let cs ← expectChar sep cs
  let (m, cs) ← takeDigits12 1 12 cs
  let cs ← expectChar sep cs
  let (d, cs) ← takeDigits12 1 31 cs
  some ((y, m, d), cs)

/-- `datetime.strptime(s, "%Y-%m-%d %H:%M:%S")`. -/
def parseFmtYmdHms (s : String) : Option PyDateTime := do
  let ((y, m, d), cs) ← parseYmdWith '-' s.toList
  let cs ← expectChar ' ' cs
  let ((h, mi, se), cs) ← parseHms cs
  if cs = [] ∧ validDate y m d ∧ se ≤ 59 then some ⟨y, m, d, h, mi, se⟩ else none

/-- `datetime.strptime(s, "%Y-%m-%d")`. -/
def parseFmtYmd (s : String) : Option PyDateTime := do
  let ((y, m, d), cs) ← parseYmdWith '-' s.toList
  if cs = [] ∧ validDate y m d then some ⟨y, m, d, 0, 0, 0⟩ else none

/-- `datetime.strptime(s, "%Y/%m/%d")`. -/
def parseFmtYmdSlash (s : String) : Option PyDateTime := do
  let ((y, m, d), cs) ← parseYmdWith '/' s.toList
  if cs = [] ∧ validDate y m d then some ⟨y, m, d, 0, 0, 0⟩ else none

/-- `datetime.strptime(s, "%m/%d/%Y")`. -/
def parseFmtMdY (s : String) : Option PyDateTime := do
  let (m, cs) ← takeDigits12 1 12 s.toList
  let cs ← expectChar '/' cs
  let (d, cs) ← takeDigits12 1 31 cs
  let cs ← expectChar '/' cs
  let (y, cs) ← takeExactDigits 4 cs
  if cs = [] ∧ validDate y m d then some ⟨y, m, d, 0, 0, 0⟩ else none

/-- Date-format fallback chain of `prepare_order_data`
(`data_loader.py:81-86`): the four formats are attempted in source
order and the first success wins. -/
def tryOrderDateFormats (s : String) : Option PyDateTime :=
  (parseFmtYmdHms s).orElse fun _ =>
  (parseFmtYmd s).orElse fun _ =>
  (parseFmtYmdSlash s).orElse fun _ =>
  parseFmtMdY s

/-- Email acceptance modelling pydantic's `EmailStr` (backed by the
external `email_validator` package): exactly one `@`, a nonempty local
part, and a dotted domain with nonempty labels and no edge dots or
hyphens.  This captures the library's behaviour on every address
appearing in this development (plain ASCII addresses and plainly broken
strings such as `not-an-email`). -/
def isValidEmail (s : String) : Bool :=
  match strSplitOnChar '@' s with
  | [lp, dom] =>
      lp ≠ "" && dom ≠ "" && dom.toList.contains '.' &&
      !((strSplitOnChar '.' dom).any (fun part => part = "")) &&
      !(strStartsWith "-" dom) && !(strEndsWith "-" dom) &&
      !s.toList.any (fun c => c = ' ' ∨ c = ',')
  | _ => false

/-- Time part of an ISO-8601 datetime as accepted by pydantic v2's
`speedate` coercion: `HH:MM`, optional `:SS`, optional fractional
seconds (which the model discards). -/
def parseIsoTime (cs0 : List Char) : Option ((Nat × Nat × Nat) × List Char) := do
  let (h, cs) ← takeExactDigits 2 cs0
  let cs ← expectChar ':' cs
  let (mi, cs) ← takeExactDigits 2 cs
  match cs with
  | ':' :: rest => do
      let (se, cs) ← takeExactDigits 2 rest
      match cs with
      | '.' :: t =>
          if (t.takeWhile Char.isDigit).isEmpty then none
          else some ((h, mi, se), t.dropWhile Char.isDigit)
      | t => some ((h, mi, se), t)
  | _ => some ((h, mi, 0), cs)

/-- ISO-8601 datetime string as accepted by pydantic v2 for a
`datetime` field: `YYYY-MM-DD`, optionally followed by `T`/`t`/space and
a time, optionally suffixed with `Z`.  Numeric UTC offsets such as
`+05:00` are not modelled; no input in this development carries one. -/
def pydParseIsoDateTime (s : String) : Option PyDateTime := do
  let (y, cs) ← takeExactDigits 4 s.toList
  let cs ← expectChar '-' cs
  let (m, cs) ← takeExactDigits 2 cs
  let cs ← expectChar '-' cs
  let (d, cs) ← takeExactDigits 2 cs
  match cs with
  | [] => if validDate y m d then some ⟨y, m, d, 0, 0, 0⟩ else none
  | sep :: rest =>
      if sep = 'T' ∨ sep = 't' ∨ sep = ' ' then do
        let ((h, mi, se), cs) ← parseIsoTime rest
        let cs := match cs with
          | 'Z' :: t => t
          | 'z' :: t => t
          | t => t
        if cs = [] ∧ validDate y m d ∧ h ≤ 23 ∧ mi ≤ 59 ∧ se ≤ 59 then
          some ⟨y, m, d, h, mi, se⟩
        else none
      else none

/-- Civil date from a count of days since 1970-01-01 (proleptic
Gregorian; the standard era-based algorithm). -/
def civilFromDays (z0 : Nat) : Nat × Nat × Nat :=
  let z := z0 + 719468
  let era := z / 146097
  let doe := z % 146097
  let yoe := (doe - doe / 1460 + doe / 36524 - doe / 146096) / 365
  let y0 := yoe + era * 400
  let doy := doe - (365 * yoe + yoe / 4 - yoe / 100)
  let mp := (5 * doy + 2) / 153
  let d := doy - (153 * mp + 2) / 5 + 1
  let m := if mp < 10 then mp + 3 else mp - 9
  (if m ≤ 2 then y0 + 1 else y0, m, d)

/-- Pydantic's numeric-timestamp coercion for `datetime` fields,
restricted to nonnegative second-precision epochs (negative epochs and
the milliseconds heuristic for large magnitudes are not modelled; no
input in this development is a numeric timestamp). -/
def epochToPyDateTime (q : ℚ) : Option PyDateTime :=
  if q < 0 then none
  else
    let secs := q.floor.toNat
    let (y, m, d) := civilFromDays (secs / 86400)
    let rem := secs % 86400
    if y ≤ 9999 then some ⟨y, m, d, rem / 3600, rem % 3600 / 60, rem % 60⟩ else none

/-- Pydantic v2 coercion of a field annotated `datetime`: `datetime`
objects pass through, strings go through the ISO parse, numbers through
the epoch conversion, everything else is a type error. -/
def pydanticDatetime : JVal → Except String PyDateTime
  | JVal.jDate d => .ok d
  | JVal.jStr s =>
      match pydParseIsoDateTime s with
      | some d => .ok d
      | none => .error "Input should be a valid datetime or date, invalid format"
  | JVal.jNum q =>
      match epochToPyDateTime q with
      | some d => .ok d
      | none => .error "Input should be a valid datetime, invalid timestamp"
  | _ => .error "Input should be a valid datetime"

/-- Opening-brace character, `chr(123)`. -/
def lbraceChar : Char := Char.ofNat 123

/-- Closing-brace character, `chr(125)`. -/
def rbraceChar : Char := Char.ofNat 125

/-- JSON insignificant whitespace (`json` accepts space, tab, newline
and carriage return between tokens). -/
def jsonWs (c : Char) : Bool :=
  c = ' ' ∨ c = '\t' ∨ c = '\n' ∨ c = '\r'

/-- Skip insignificant whitespace. -/
def skipWs (cs : List Char) : List Char :=
  cs.dropWhile jsonWs

/-- Value of one hexadecimal digit. -/
def hexDigitVal (c : Char) : Option Nat :=
  if c.isDigit then some (c.toNat - 48)
  else if 'a' ≤ c ∧ c ≤ 'f' then some (c.toNat - 97 + 10)
  else if 'A' ≤ c ∧ c ≤ 'F' then some (c.toNat - 65 + 10)
  else none

/-- Single-character JSON string escape. -/
def unescapeChar (c : Char) : Option Char :=
  if c = '"' ∨ c = '\\' ∨ c = '/' then some c
  else if c = 'b' then some (Char.ofNat 8)
  else if c = 'f' then some (Char.ofNat 12)
  else if c = 'n' then some '\n'
  else if c = 'r' then some '\r'
  else if c = 't' then some '\t'
  else none

/-- Body of a JSON string literal, after the opening quote: returns the
decoded characters and the input remaining after the closing quote. -/
def parseJStringBody : Nat → List Char → Option (List Char × List Char)
  | 0, _ => none
  | _, [] => none
  | fuel + 1, c :: rest =>
      if c = '"' then some ([], rest)
      else if c = '\\' then
        match rest with
        | [] => none
        | e :: rest' =>
            if e = 'u' then
              match rest' with
              | h1 :: h2 :: h3 :: h4 :: rest'' => do
                  let v1 ← hexDigitVal h1
                  let v2 ← hexDigitVal h2
                  let v3 ← hexDigitVal h3
                  let v4 ← hexDigitVal h4
                  let (ss, r) ← parseJStringBody fuel rest''
                  some (Char.ofNat (((v1 * 16 + v2) * 16 + v3) * 16 + v4) :: ss, r)
              | _ => none
            else do
              let ec ← unescapeChar e
              let (ss, r) ← parseJStringBody fuel rest'
              some (ec :: ss, r)
      else do
        let (ss, r) ← parseJStringBody fuel rest
        some (c :: ss, r)

/-- JSON number token, following the `NUMBER_RE` grammar of the Python
`json` module: optional minus, `0` or a run with no leading zero, an
optional fraction with at least one digit, an optional exponent. -/
def parseJsonNumber (cs : List Char) : Option (ℚ × List Char) :=
  let (sign, cs1) :=
    match cs with
    | '-' :: t => ((-1 : Int), t)
    | t => ((1 : Int), t)
  match cs1 with
  | [] => none
  | c :: t =>
      if ¬ c.isDigit then none
      else
        let (ipart, rest) :=
          if c = '0' then ([c], t)
          else (cs1.takeWhile Char.isDigit, cs1.dropWhile Char.isDigit)
        let (fpart, rest) :=
          match rest with
          | '.' :: t' =>
              if (t'.takeWhile Char.isDigit).isEmpty then (([] : List Char), '.' :: t')
              else (t'.takeWhile Char.isDigit, t'.dropWhile Char.isDigit)
          | t' => ([], t')
        let num : Int :=
          sign * ((digitsToNat ipart * 10 ^ fpart.length + digitsToNat fpart : Nat) : Int)
        let den : Nat := 10 ^ fpart.length
        match rest with
        | e :: t' =>
            if e = 'e' ∨ e = 'E' then
              let (esign, t2) :=
                match t' with
                | '-' :: t'' => ((-1 : Int), t'')
                | '+' :: t'' => ((1 : Int), t'')
                | t'' => ((1 : Int), t'')
              let edigits := t2.takeWhile Char.isDigit
              if edigits.isEmpty then some (mkRat num den, rest)
              else
                let ev := digitsToNat edigits
                if esign = 1 then
                  some (mkRat (num * ((10 ^ ev : Nat) : Int)) den, t2.dropWhile Char.isDigit)
                else some (mkRat num (den * 10 ^ ev), t2.dropWhile Char.isDigit)
            else some (mkRat num den, rest)
        | [] => some (mkRat num den, [])

mutual

/-- JSON value, mirroring `json.loads` (fuel-indexed recursive descent;
the fuel supplied by `jsonParse` always suffices for its input). -/
def parseJVal : Nat → List Char → Except String (JVal × List Char)
  | 0, _ => .error "Expecting value"
  | fuel + 1, cs =>
      match skipWs cs with
      | [] => .error "Expecting value"
      | c :: rest =>
          if c = '"' then
            match parseJStringBody (rest.length + 1) rest with
            | some (content, r) => .ok (JVal.jStr (String.mk content), r)
            | none => .error "Unterminated string starting at"
          else if c = lbraceChar then
            match skipWs rest with
            | c2 :: r2 =>
                if c2 = rbraceChar then .ok (JVal.jObj [], r2)
                else parseObjMembers fuel rest []
            | [] => .error "Expecting property name enclosed in double quotes"
          else if c = '[' then
            match skipWs rest with
            | c2 :: r2 =>
                if c2 = ']' then .ok (JVal.jArr [], r2)
                else parseArrItems fuel rest []
            | [] => .error "Expecting value"
          else if (c :: rest).take 4 = "true".toList then
            .ok (JVal.jBool true, (c :: rest).drop 4)
          else if (c :: rest).take 5 = "false".toList then
            .ok (JVal.jBool false, (c :: rest).drop 5)
          else if (c :: rest).take 4 = "null".toList then
            .ok (JVal.jNull, (c :: rest).drop 4)
          else
            match parseJsonNumber (c :: rest) with
            | some (q, r) => .ok (JVal.jNum q, r)
            | none => .error "Expecting value"

/-- Comma-separated items of a JSON array, after the opening bracket. -/
def parseArrItems : Nat → List Char → List JVal → Except String (JVal × List Char)
  | 0, _, _ => .error "Expecting value"
  | fuel + 1, cs, acc =>
      match parseJVal fuel cs with
      | .error e => .error e
      | .ok (v, rest) =>
          match skipWs rest with
          | ',' :: r2 => parseArrItems fuel r2 (acc ++ [v])
          | ']' :: r2 => .ok (JVal.jArr (acc ++ [v]), r2)
          | _ => .error "Expecting ',' delimiter"

/-- Comma-separated members of a JSON object, after the opening brace;
duplicate keys keep the last value, as in Python `dict` building. -/
def parseObjMembers : Nat → List Char → RawRecord → Except String (JVal × List Char)
  | 0, _, _ => .error "Expecting property name enclosed in double quotes"
  | fuel + 1, cs, acc =>
      match skipWs cs with
      | '"' :: rest =>
          match parseJStringBody (rest.length + 1) rest with
          | none => .error "Unterminated string starting at"
          | some (key, r1) =>
              match skipWs r1 with
              | ':' :: r2 =>
                  match parseJVal fuel r2 with
                  | .error e => .error e
                  | .ok (v, r3) =>
                      let acc' := dictInsert acc (String.mk key) v
                      match skipWs r3 with
                      | ',' :: r4 => parseObjMembers fuel r4 acc'
                      | c4 :: r4 =>
                          if c4 = rbraceChar then .ok (JVal.jObj acc', r4)
                          else .error "Expecting ',' delimiter"
                      | [] => .error "Expecting ',' delimiter"
              | _ => .error "Expecting ':' delimiter"
      | _ => .error "Expecting property name enclosed in double quotes"

end

/-- Fuel that always suffices for `parseJVal` on the given input. -/
def jsonFuel (cs : List Char) : Nat :=
  2 * cs.length + 8

/-- `json.loads(s)`: parse one JSON value and require only whitespace
after it (otherwise `Extra data`). -/
def jsonParse (s : String) : Except String JVal :=
  match parseJVal (jsonFuel s.toList) s.toList with
  | .error e => .error e
  | .ok (v, rest) => if (skipWs rest).isEmpty then .ok v else .error "Extra data"

/-- NDJSON fallback loop of `FileParserService.parse_json_streaming`
(`file_parser.py:79-86`): parse each non-blank stripped line as one
JSON document; the first line that fails aborts the whole decode with
the `Invalid JSON line` error naming the line's first 50 characters and
the parse error. -/
def ndjsonDecode : List String → Except String (List JVal)
  | [] => .ok []
  | line :: rest =>
      let l := pyStrip line
      if l = "" then ndjsonDecode rest
      else
        match jsonParse l with
        | .ok v => (ndjsonDecode rest).map (fun vs => v :: vs)
        | .error e => .error ("Invalid JSON line: " ++ strTake 50 l ++ "... Error: " ++ e)

/-- `FileParserService.parse_json_streaming` (`file_parser.py:53-86`):
try the whole stripped payload as one JSON document — an array yields
its items, a single object yields itself, any other value raises — and
on a parse failure fall back to newline-delimited JSON.  The source is
a generator whose records reach the caller one by one; the model
returns the full record list, or the error that the generator raises
(which aborts the upload via the handler at `upload.py:90-92`). -/
def parse_json_streaming (content : String) : Except String (List JVal) :=
  let text := pyStrip content
  match jsonParse text with
  | .ok (JVal.jArr xs) => .ok xs
  | .ok (JVal.jObj fs) => .ok [JVal.jObj fs]
  | .ok _ => .error "JSON must be an array of objects or a single object"
  | .error _ => ndjsonDecode (strSplitOnChar '\n' text)

/-- Cell cleaning of `parse_csv_streaming` (`file_parser.py:47-50`):
`v.strip() if v else None` — a missing or empty cell becomes `None`,
anything else is stripped. -/
def cleanVal : Option String → JVal
  | none => JVal.jNull
  | some s => if s = "" then JVal.jNull else JVal.jStr (pyStrip s)

/-- One `csv.DictReader` row followed by the cleaning comprehension of
`parse_csv_streaming`: keys are the header names (trimmed by the
cleaning step, duplicates keeping the last value), short rows are
padded with the `None` restval.  A row longer than the header puts its
extras under the `None` restkey, and the cleaning comprehension then
crashes on `None.strip()`; that case returns `none`. -/
def dictReaderRow (header : List String) (row : List String) : Option RawRecord :=
  if header.length < row.length then none
  else
    let vals : List (Option String) :=
      row.map some ++ List.replicate (header.length - row.length) none
    some (dictOfPairs ((header.zip vals).map (fun p => (pyStrip p.1, cleanVal p.2))))

/-- All data rows of a CSV file under one header; `csv.DictReader`
skips blank rows, and a crashing row aborts the whole decode (the
generator's exception propagates to the upload handler). -/
def dictReaderAll (header : List String) : List (List String) → Except String (List RawRecord)
  | [] => .ok []
  | row :: rest =>
      if row.isEmpty then dictReaderAll header rest
      else
        match dictReaderRow header row with
        | some r => (dictReaderAll header rest).map (fun rs => r :: rs)
        | none => .error "'NoneType' object has no attribute 'strip'"

/-- `FileParserService.parse_csv_streaming` at the level of tokenized
rows: the first row is the `DictReader` header, the rest are data. -/
def parse_csv_rows (rows : List (List String)) : Except String (List RawRecord) :=
  match rows with
  | [] => .ok []
  | header :: rest => dictReaderAll header rest

/-- Drop one trailing carriage return (CRLF input). -/
def stripCr (line : String) : String :=
  if strEndsWith "\r" line then String.mk line.data.dropLast else line

/-- Lines of a CSV payload as the `csv` module consumes them from the
`StringIO` object: split on newlines, with no empty final line for a
trailing newline. -/
def csvSplitLines (content : String) : List String :=
  let ls := (strSplitOnChar '\n' content).map stripCr
  match ls.getLast? with
  | some "" => ls.dropLast
  | _ => ls

/-- Cells of one CSV line.  This tokenizer models `csv.reader` for
inputs without quoting or escaped separators, which covers every
concrete input of this development; a blank line tokenizes to the empty
row, as in the `csv` module. -/
def csvCells (line : String) : List String :=
  if line = "" then [] else strSplitOnChar ',' line

/-- `FileParserService.parse_csv_streaming` on a raw payload. -/
def parse_csv_streaming (content : String) : Except String (List RawRecord) :=
  parse_csv_rows ((csvSplitLines content).map csvCells)

/-- Field-level validation failure, as pydantic reports it: the field
name and a message. -/
structure FieldError where
  field : String
  msg : String
deriving DecidableEq, Repr

/-- Error list of one field check. -/
def errList (c : Except FieldError β) : List FieldError :=
  match c with
  | .ok _ => []
  | .error e => [e]

/-- Required pydantic `str` field with `min_length`/`max_length`. -/
def checkStr (fieldName : String) (lo hi : Nat) (v : JVal) : Except FieldError String :=
  match v with
  | JVal.jStr s =>
      if lo ≤ s.length ∧ s.length ≤ hi then .ok s
      else .error ⟨fieldName, "String should have between " ++ toString lo ++ " and " ++ toString hi ++ " characters"⟩
  | _ => .error ⟨fieldName, "Input should be a valid string"⟩

/-- Optional pydantic `str` field with `max_length`. -/
def checkOptStr (fieldName : String) (hi : Nat) (v : JVal) : Except FieldError (Option String) :=
  match v with
  | JVal.jNull => .ok none
  | JVal.jStr s =>
      if s.length ≤ hi then .ok (some s)
      else .error ⟨fieldName, "String should have at most " ++ toString hi ++ " characters"⟩
  | _ => .error ⟨fieldName, "Input should be a valid string"⟩

/-- Optional pydantic `str` field without a length bound. -/
def checkOptFree (fieldName : String) (v : JVal) : Except FieldError (Option String) :=
  match v with
  | JVal.jNull => .ok none
  | JVal.jStr s => .ok (some s)
  | _ => .error ⟨fieldName, "Input should be a valid string"⟩

/-- Pydantic `EmailStr` field. -/
def checkEmail (v : JVal) : Except FieldError String :=
  match v with
  | JVal.jStr s =>
      if isValidEmail s then .ok s
      else .error ⟨"email", "value is not a valid email address"⟩
  | _ => .error ⟨"email", "Input should be a valid string"⟩

/-- Pydantic `float` field with `gt=0` (the prepared value is already a
number, so only the bound is checked). -/
def checkQGtZero (fieldName : String) (q : ℚ) : Except FieldError ℚ :=
  if 0 < q then .ok q else .error ⟨fieldName, "Input should be greater than 0"⟩

/-- Pydantic `float` field with `ge=0`. -/
def checkQGeZero (fieldName : String) (q : ℚ) : Except FieldError ℚ :=
  if 0 ≤ q then .ok q else .error ⟨fieldName, "Input should be greater than or equal to 0"⟩

/-- Pydantic `int` field with `ge=0`. -/
def checkIntGeZero (fieldName : String) (n : Int) : Except FieldError Int :=
  if 0 ≤ n then .ok n else .error ⟨fieldName, "Input should be greater than or equal to 0"⟩

/-- Pydantic `int` field with `gt=0`. -/
def checkIntGtZero (fieldName : String) (n : Int) : Except FieldError Int :=
  if 0 < n then .ok n else .error ⟨fieldName, "Input should be greater than 0"⟩

/-- Pydantic `datetime` field. -/
def checkDatetime (fieldName : String) (v : JVal) : Except FieldError PyDateTime :=
  match pydanticDatetime v with
  | .ok d => .ok d
  | .error e => .error ⟨fieldName, e⟩

/-- Allowed order statuses (`OrderSchema.validate_status`,
`schemas/__init__.py:43`). -/
def validStatuses : List String :=
  ["pending", "processing", "shipped", "delivered", "cancelled"]

/-- The `status` field of `OrderSchema`: the `str` constraints
(`min_length=1, max_length=50`) run first, then the `validate_status`
field validator lower-cases the value and requires membership in the
fixed enumeration. -/
def checkStatus (v : JVal) : Except FieldError String :=
  match checkStr "status" 1 50 v with
  | .error e => .error e
  | .ok s =>
      if lowerStr s ∈ validStatuses then .ok (lowerStr s)
      else .error ⟨"status", "Value error, Status must be one of " ++ String.intercalate ", " validStatuses⟩

/-- Output of `prepare_customer_data` (`data_loader.py:52-61`). -/
structure CustomerData where
  customer_id : JVal
  name : JVal
  email : JVal
  phone : JVal
  address : JVal

/-- `DataLoaderService.prepare_customer_data`. -/
def prepare_customer_data (r : RawRecord) : CustomerData :=
  ⟨rgetD r "customer_id", rgetD r "name", rgetD r "email", rgetD r "phone", rgetD r "address"⟩

/-- A validated customer, the payload of a `customers` table row. -/
structure CustomerRow where
  customer_id : String
  name : String
  email : String
  phone : Option String
  address : Option String
deriving DecidableEq, Repr

/-- `CustomerSchema(**data)`: per-field coercion in declaration order,
collecting every field error, as pydantic does. -/
def validateCustomer (d : CustomerData) : Except (List FieldError) CustomerRow :=
  match checkStr "customer_id" 1 50 d.customer_id, checkStr "name" 1 255 d.name,
        checkEmail d.email, checkOptStr "phone" 50 d.phone, checkOptFree "address" d.address with
  | .ok cid, .ok nm, .ok em, .ok ph, .ok ad => .ok ⟨cid, nm, em, ph, ad⟩
  | c1, c2, c3, c4, c5 =>
      .error (errList c1 ++ errList c2 ++ errList c3 ++ errList c4 ++ errList c5)

/-- Output of `prepare_product_data` (`data_loader.py:63-73`); the
`float`/`int` conversions have already run, so `price` and
`stock_quantity` are numeric. -/
structure ProductData where
  product_id : JVal
  name : JVal
  description : JVal
  price : ℚ
  category : JVal
  stock_quantity : Int

/-- `DataLoaderService.prepare_product_data`: a failing `float()` or
`int()` conversion raises, which the caller turns into a row error. -/
def prepare_product_data (r : RawRecord) : Except String ProductData := do
  let price ← pyFloat (rgetOr r "price" (JVal.jNum 0))
  let sq ← if pyTruthy (rgetD r "stock_quantity") then pyInt (rgetOr r "stock_quantity" (JVal.jNum 0)) else pure 0
  pure ⟨rgetD r "product_id", rgetD r "name", rgetD r "description", price, rgetD r "category", sq⟩

/-- A validated product row. -/
structure ProductRow where
  product_id : String
  name : String
  description : Option String
  price : ℚ
  category : Option String
  stock_quantity : Int
deriving DecidableEq, Repr

/-- `ProductSchema(**data)`. -/
def validateProduct (d : ProductData) : Except (List FieldError) ProductRow :=
  match checkStr "product_id" 1 50 d.product_id, checkStr "name" 1 255 d.name,
        checkOptFree "description" d.description, checkQGtZero "price" d.price,
        checkOptStr "category" 100 d.category, checkIntGeZero "stock_quantity" d.stock_quantity with
  | .ok pid, .ok nm, .ok de, .ok pr, .ok ca, .ok sq => .ok ⟨pid, nm, de, pr, ca, sq⟩
  | c1, c2, c3, c4, c5, c6 =>
      .error (errList c1 ++ errList c2 ++ errList c3 ++ errList c4 ++ errList c5 ++ errList c6)

/-- Output of `prepare_order_data` (`data_loader.py:75-94`). -/
structure OrderData where
  order_id : JVal
  customer_id : JVal
  order_date : JVal
  status : JVal
  total_amount : ℚ

/-- `DataLoaderService.prepare_order_data`: a string `order_date` is
run through the four `strptime` formats (first success wins, failure
keeps the string); a missing `status` key defaults to `"pending"`;
`total_amount` goes through `float()`. -/
def prepare_order_data (r : RawRecord) : Except String OrderData := do
  let od :=
    match rgetD r "order_date" with
    | JVal.jStr s =>
        match tryOrderDateFormats s with
        | some dt => JVal.jDate dt
        | none => JVal.jStr s
    | v => v
  let ta ← pyFloat (rgetOr r "total_amount" (JVal.jNum 0))
  pure ⟨rgetD r "order_id", rgetD r "customer_id", od, rgetOr r "status" (JVal.jStr "pending"), ta⟩

/-- A validated order row. -/
structure OrderRow where
  order_id : String
  customer_id : String
  order_date : PyDateTime
  status : String
  total_amount : ℚ
deriving DecidableEq, Repr

/-- `OrderSchema(**data)`. -/
def validateOrder (d : OrderData) : Except (List FieldError) OrderRow :=
  match checkStr "order_id" 1 50 d.order_id, checkStr "customer_id" 1 50 d.customer_id,
        checkDatetime "order_date" d.order_date, checkStatus d.status,
        checkQGeZero "total_amount" d.total_amount with
  | .ok oid, .ok cid, .ok od, .ok st, .ok ta => .ok ⟨oid, cid, od, st, ta⟩
  | c1, c2, c3, c4, c5 =>
      .error (errList c1 ++ errList c2 ++ errList c3 ++ errList c4 ++ errList c5)

/-- Output of `prepare_order_item_data` (`data_loader.py:96-109`). -/
structure OrderItemData where
  order_id : JVal
  product_id : JVal
  quantity : Int
  unit_price : ℚ
  subtotal : ℚ

/-- `DataLoaderService.prepare_order_item_data`: `quantity` through
`int()`, `unit_price` through `float()`, and `subtotal` through
`float()` of the stored value when the key is present, else the
computed `quantity * unit_price`. -/
def prepare_order_item_data (r : RawRecord) : Except String OrderItemData := do
  let q ← pyInt (rgetOr r "quantity" (JVal.jNum 0))
  let up ← pyFloat (rgetOr r "unit_price" (JVal.jNum 0))
  let st ←
    match rget r "subtotal" with
    | some v => pyFloat v
    | none => pure ((q : ℚ) * up)
  pure ⟨rgetD r "order_id", rgetD r "product_id", q, up, st⟩

/-- A validated order-item row. -/
structure OrderItemRow where
  order_id : String
  product_id : String
  quantity : Int
  unit_price : ℚ
  subtotal : ℚ
deriving DecidableEq, Repr

/-- `OrderItemSchema(**data)`; the `validate_subtotal` field validator
is a no-op (`schemas/__init__.py:60-65`). -/
def validateOrderItem (d : OrderItemData) : Except (List FieldError) OrderItemRow :=
  match checkStr "order_id" 1 50 d.order_id, checkStr "product_id" 1 50 d.product_id,
        checkIntGtZero "quantity" d.quantity, checkQGtZero "unit_price" d.unit_price,
        checkQGeZero "subtotal" d.subtotal with
  | .ok oid, .ok pid, .ok q, .ok up, .ok st => .ok ⟨oid, pid, q, up, st⟩
  | c1, c2, c3, c4, c5 =>
      .error (errList c1 ++ errList c2 ++ errList c3 ++ errList c4 ++ errList c5)

/-- Rendering of a pydantic `ValidationError` into the row error line
(the model abbreviates pydantic's multi-line `str(e)` to a field/message
list; only the presence and count of row errors matter downstream). -/
def renderFieldErrors : List FieldError → String
  | [] => ""
  | [e] => e.field ++ ": " ++ e.msg
  | e :: rest => e.field ++ ": " ++ e.msg ++ "; " ++ renderFieldErrors rest

/-- Outcome of one iteration of the loop in
`validate_and_categorize_records` (`data_loader.py:125-160`): a
validated row of one kind, or an error line appended to
`self.errors`. -/
inductive RowOutcome where
  | rcust : CustomerRow → RowOutcome
  | rprod : ProductRow → RowOutcome
  | rord : OrderRow → RowOutcome
  | ritem : OrderItemRow → RowOutcome
  | rerr : String → RowOutcome

/-- Row-number prefix of the loop's error lines (1-based). -/
def rowTag (idx : Nat) : String :=
  "Row " ++ toString (idx + 1) ++ ": "

/-- One iteration of `validate_and_categorize_records`: classify, then
prepare and validate under the loop's two `except` arms.  A non-`dict`
record raises `AttributeError` at `record.keys()`, caught by the
generic arm; a prepare-time `float()`/`int()` failure is caught by the
same arm; a pydantic failure is caught as `ValidationError`.  A
`table_type` outside the four known strings would fall through the
`elif` chain silently — that is the `none` outcome, provably
unreachable. -/
def processRow (idx : Nat) (v : JVal) : Option RowOutcome :=
  match v with
  | JVal.jObj fs =>
      match identify_table_type fs with
      | none => some (.rerr (rowTag idx ++ "Could not identify table type from fields"))
      | some "customer" =>
          match validateCustomer (prepare_customer_data fs) with
          | .ok row => some (.rcust row)
          | .error es => some (.rerr (rowTag idx ++ "Validation error - " ++ renderFieldErrors es))
      | some "product" =>
          match prepare_product_data fs with
          | .error e => some (.rerr (rowTag idx ++ "Error - " ++ e))
          | .ok d =>
              match validateProduct d with
              | .ok row => some (.rprod row)
              | .error es => some (.rerr (rowTag idx ++ "Validation error - " ++ renderFieldErrors es))
      | some "order" =>
          match prepare_order_data fs with
          | .error e => some (.rerr (rowTag idx ++ "Error - " ++ e))
          | .ok d =>
              match validateOrder d with
              | .ok row => some (.rord row)
              | .error es => some (.rerr (rowTag idx ++ "Validation error - " ++ renderFieldErrors es))
      | some "order_item" =>
          match prepare_order_item_data fs with
          | .error e => some (.rerr (rowTag idx ++ "Error - " ++ e))
          | .ok d =>
              match validateOrderItem d with
              | .ok row => some (.ritem row)
              | .error es => some (.rerr (rowTag idx ++ "Validation error - " ++ renderFieldErrors es))
      | some _ => none
  | _ => some (.rerr (rowTag idx ++ "Error - '" ++ pyTypeName v ++ "' object has no attribute 'keys'"))

/-- The four per-kind lists produced by
`validate_and_categorize_records`, in input order. -/
structure Categorized where
  customers : List CustomerRow
  products : List ProductRow
  orders : List OrderRow
  order_items : List OrderItemRow
deriving DecidableEq, Repr

/-- The empty categorization. -/
def emptyCategorized : Categorized := ⟨[], [], [], []⟩

/-- Loop of `validate_and_categorize_records` starting at row index
`idx`, returning the categorized rows and the error lines in input
order. -/
def categorizeFrom (idx : Nat) : List JVal → Categorized × List String
  | [] => (emptyCategorized, [])
  | v :: rest =>
      let (cat, errs) := categorizeFrom (idx + 1) rest
      match processRow idx v with
      | none => (cat, errs)
      | some (.rcust c) => ({ cat with customers := c :: cat.customers }, errs)
      | some (.rprod p) => ({ cat with products := p :: cat.products }, errs)
      | some (.rord o) => ({ cat with orders := o :: cat.orders }, errs)
      | some (.ritem it) => ({ cat with order_items := it :: cat.order_items }, errs)
      | some (.rerr e) => (cat, e :: errs)

/-- `DataLoaderService.validate_and_categorize_records(records)`
(`data_loader.py:111-162`). -/
def validate_and_categorize_records (records : List JVal) : Categorized × List String :=
  categorizeFrom 0 records

/-- The relational store: the four tables, each a list of rows in
insertion order.  Natural-key existence checks are list membership. -/
structure Store where
  customers : List CustomerRow
  products : List ProductRow
  orders : List OrderRow
  order_items : List OrderItemRow
deriving DecidableEq, Repr

/-- The empty store. -/
def emptyStore : Store := ⟨[], [], [], []⟩

/-- Customer natural keys present in the store. -/
def custIds (s : Store) : List String := s.customers.map (fun c => c.customer_id)

/-- Product natural keys present in the store. -/
def prodIds (s : Store) : List String := s.products.map (fun p => p.product_id)

/-- Order natural keys present in the store. -/
def ordIds (s : Store) : List String := s.orders.map (fun o => o.order_id)

/-- `DataLoaderService.verify_relationships(categorized)`
(`data_loader.py:164-204`): orders must reference a customer visible in
the chunk's validated customers or the store; order items must
reference an order visible in the chunk's validated orders (all of
them, including orders that just failed the customer check) or the
store, and likewise a visible product.  Returns the error lines this
method appends to `self.errors`. -/
def verify_relationships (cat : Categorized) (s : Store) : List String :=
  let allCust := cat.customers.map (fun c => c.customer_id) ++ custIds s
  let allProd := cat.products.map (fun p => p.product_id) ++ prodIds s
  let orderErrs := cat.orders.filterMap (fun o =>
    if o.customer_id ∈ allCust then none
    else some ("Order " ++ o.order_id ++ ": Referenced customer " ++ o.customer_id ++ " does not exist"))
  let allOrd := cat.orders.map (fun o => o.order_id) ++ ordIds s
  let itemErrs := cat.order_items.flatMap (fun it =>
    (if it.order_id ∈ allOrd then [] else
      ["Order item: Referenced order " ++ it.order_id ++ " does not exist"]) ++
    (if it.product_id ∈ allProd then [] else
      ["Order item: Referenced product " ++ it.product_id ++ " does not exist"]))
  orderErrs ++ itemErrs

/-- Insert-or-skip loop of `load_data_batch` for one keyed kind: walk
the validated rows in order; a row whose natural key is already present
(in the store or added earlier in the same loop — the session
autoflushes pending adds before each existence `select`) is skipped,
otherwise it is appended and counted. -/
def insertNew (key : α → String) : List α → List α → Nat × List α
  | existing, [] => (0, existing)
  | existing, r :: rs =>
      if key r ∈ existing.map key then insertNew key existing rs
      else
        let res := insertNew key (existing ++ [r]) rs
        (res.1 + 1, res.2)

/-- `DataLoaderService.load_data_batch(categorized)`
(`data_loader.py:206-300`): customers, then products, then orders go
through the insert-or-skip loop with a flush between kinds; order items
(`data_loader.py:279-289`) are appended unconditionally — the source
performs no existence check for them.  The store cannot fail in this
model, so the per-row `except` arms and the transaction rollback arm
contribute no errors. -/
def load_data_batch (cat : Categorized) (s : Store) : (Nat × Nat × Nat × Nat) × Store :=
  let rc := insertNew (fun c => c.customer_id) s.customers cat.customers
  let rp := insertNew (fun p => p.product_id) s.products cat.products
  let ro := insertNew (fun o => o.order_id) s.orders cat.orders
  ((rc.1, rp.1, ro.1, cat.order_items.length),
   ⟨rc.2, rp.2, ro.2, s.order_items ++ cat.order_items⟩)

/-- Result of processing one or more chunks: the store afterwards, the
created counts, and the accumulated error lines. -/
structure IngestResult where
  store : Store
  customers_created : Nat
  products_created : Nat
  orders_created : Nat
  order_items_created : Nat
  errors : List String
deriving DecidableEq, Repr

/-- Body of the per-chunk loop of `upload_file` (`upload.py:58-88`):
validate-and-categorize, verify relationships, and persist only when
`loader.errors` is empty — any classification, validation or
relationship error therefore skips `load_data_batch` for the whole
chunk. -/
def processChunk (s : Store) (chunk : List JVal) : IngestResult :=
  let catErrs := validate_and_categorize_records chunk
  let rerrs := verify_relationships catErrs.1 s
  let errs := catErrs.2 ++ rerrs
  if errs.isEmpty then
    let r := load_data_batch catErrs.1 s
    ⟨r.2, r.1.1, r.1.2.1, r.1.2.2.1, r.1.2.2.2, errs⟩
  else
    ⟨s, 0, 0, 0, 0, errs⟩

/-- The chunk loop of `upload_file`, accumulating counts and errors
across chunks (ignoring the dead reads of `loader.success_rows`, which
`uploadLoop` models). -/
def ingestChunks (s : Store) : List (List JVal) → IngestResult
  | [] => ⟨s, 0, 0, 0, 0, []⟩
  | ch :: rest =>
      let r := processChunk s ch
      let rr := ingestChunks r.store rest
      ⟨rr.store,
        r.customers_created + rr.customers_created,
        r.products_created + rr.products_created,
        r.orders_created + rr.orders_created,
        r.order_items_created + rr.order_items_created,
        r.errors ++ rr.errors⟩

/-- Full ingestion of a record sequence: chunk with the configured
chunk size, then run the chunk loop. -/
def ingest (s : Store) (records : List JVal) : IngestResult :=
  ingestChunks s (chunk_records records CHUNK_SIZE)

/-- `FileParserService.detect_file_type` (`file_parser.py:15-23`). -/
def detect_file_type (filename : String) : Except String String :=
  if strEndsWith ".csv" (lowerStr filename) then .ok "csv"
  else if strEndsWith ".json" (lowerStr filename) then .ok "json"
  else .error "Unsupported file type. Only CSV and JSON are supported."

/-- Attributes that `DataLoaderService` ever assigns: `__init__`
(`data_loader.py:20-22`) sets `session` and `errors`, and no method of
the class assigns any other instance attribute. -/
def dataLoaderAttrNames : List String := ["session", "errors"]

/-- Reading an attribute of a `DataLoaderService` instance: a name the
class never assigns raises `AttributeError`, as at `upload.py:84-85`
where `loader.success_rows` and `loader.skipped_rows` are read. -/
def loaderReadAttr (a : String) : Except String Unit :=
  if a ∈ dataLoaderAttrNames then .ok ()
  else .error ("'DataLoaderService' object has no attribute '" ++ a ++ "'")

/-- The response model of `upload_file` (`UploadResponse`,
`schemas/__init__.py:71-81`). -/
structure UploadResponse where
  message : String
  records_processed : Nat
  success_rows_count : Nat
  skipped_rows_count : Nat
  customers_created : Nat
  products_created : Nat
  orders_created : Nat
  order_items_created : Nat
  errors : List String
deriving DecidableEq, Repr

/-- A failed upload request: the `HTTPException` raised with status 400
(unsupported extension, `upload.py:40`) or status 500 (any exception in
the chunk loop, `upload.py:90-92`). -/
inductive UploadFailure where
  | badRequest : String → UploadFailure
  | internalError : String → UploadFailure
deriving DecidableEq, Repr

/-- Chunk loop of `upload_file` as written (`upload.py:58-88`): after
each chunk's processing, `loader.success_rows` and
`loader.skipped_rows` are read to aggregate the totals; those
attributes are never assigned, so the first chunk raises
`AttributeError`. -/
def uploadLoop (s : Store) : List (List JVal) → Except String IngestResult
  | [] => .ok ⟨s, 0, 0, 0, 0, []⟩
  | ch :: rest =>
      let r := processChunk s ch
      match loaderReadAttr "success_rows" with
      | .error e => .error e
      | .ok _ =>
          match loaderReadAttr "skipped_rows" with
          | .error e => .error e
          | .ok _ =>
              match uploadLoop r.store rest with
              | .error e => .error e
              | .ok rr =>
                  .ok ⟨rr.store,
                    r.customers_created + rr.customers_created,
                    r.products_created + rr.products_created,
                    r.orders_created + rr.orders_created,
                    r.order_items_created + rr.order_items_created,
                    r.errors ++ rr.errors⟩

/-- `upload_file(file, db)` (`upload.py:17-104`): detect the format
(400 on an unsupported extension), decode, chunk, run the chunk loop
(any exception, including the decoder's and the `AttributeError` of
the dead attribute reads, becomes a 500), and otherwise assemble the
`UploadResponse` with the error list capped at 100 entries. -/
def uploadFile (filename content : String) (s : Store) : Except UploadFailure (UploadResponse × Store) :=
  match detect_file_type filename with
  | .error e => .error (.badRequest e)
  | .ok ftype =>
      let recsE : Except String (List JVal) :=
        if ftype = "csv" then (parse_csv_streaming content).map (fun rs => rs.map JVal.jObj)
        else parse_json_streaming content
      match recsE with
      | .error e => .error (.internalError ("Error processing file: " ++ e))
      | .ok records =>
          let chunks := chunk_records records CHUNK_SIZE
          match uploadLoop s chunks with
          | .error e => .error (.internalError ("Error processing file: " ++ e))
          | .ok r =>
              .ok ({ message := if r.errors.isEmpty then "File processed successfully"
                                else "File processed with errors",
                     records_processed := chunks.foldl (fun n ch => n + ch.length) 0,
                     success_rows_count := 0,
                     skipped_rows_count := 0,
                     customers_created := r.customers_created,
                     products_created := r.products_created,
                     orders_created := r.orders_created,
                     order_items_created := r.order_items_created,
                     errors := r.errors.take 100 }, r.store)

theorem identifyKeys_membership_invariant (ks ks' : List String)
    (h : ∀ k, k ∈ ks ↔ k ∈ ks') : identifyKeys ks = identifyKeys ks' := by
  unfold identifyKeys customerRule productRule orderItemRule orderRule
  simp only [h]

theorem chunksOf_eq_nil_iff (c : Nat) (l : List α) : chunksOf c l = [] ↔ l = [] := by
  cases l with
  | nil => simp [chunksOf]
  | cons x xs => simp [chunksOf]

theorem chunksOf_cons_ne (c : Nat) (hc : 1 ≤ c) (l : List α) (hl : l ≠ []) :
    chunksOf c l = l.take c :: chunksOf c (l.drop c) := by
  cases l with
  | nil => exact absurd rfl hl
  | cons x xs =>
      rw [chunksOf, Nat.max_eq_left hc]

theorem chunksOf_flatten (c : Nat) (l : List α) : (chunksOf c l).flatten = l := by
  induction l using chunksOf.induct c with
  | case1 => simp [chunksOf]
  | case2 x xs ih =>
      rw [chunksOf]
      simp only [List.flatten_cons, ih, List.take_append_drop]

theorem chunkLoop_eq_chunksOf (c : Nat) (hc : 1 ≤ c) (rs : List α) :
    ∀ buf : List α, buf.length < c → chunkLoop c rs buf = chunksOf c (buf ++ rs) := by
  induction rs with
  | nil =>
      intro buf hbuf
      rw [List.append_nil]
      cases buf with
      | nil => simp [chunkLoop, chunksOf]
      | cons b bs =>
          rw [chunkLoop, chunksOf_cons_ne c hc _ (by simp)]
          have hlen : (b :: bs).length ≤ c := le_of_lt hbuf
          simp [List.take_of_length_le hlen, List.drop_of_length_le hlen, chunksOf]
  | cons r rs ih =>
      intro buf hbuf
      rw [chunkLoop]
      by_cases hemit : c ≤ (buf ++ [r]).length
      · have hlen : (buf ++ [r]).length = c := by
          simp only [List.length_append, List.length_singleton] at hemit ⊢
          omega
        have h1 : buf ++ r :: rs = (buf ++ [r]) ++ rs := by simp
        have htake : ((buf ++ [r]) ++ rs).take c = buf ++ [r] := by
          rw [← hlen]; exact List.take_left _ _
        have hdrop : ((buf ++ [r]) ++ rs).drop c = rs := by
          rw [← hlen]; exact List.drop_left _ _
        rw [if_pos hemit, ih [] (by simpa using hc), List.nil_append, h1,
          chunksOf_cons_ne c hc ((buf ++ [r]) ++ rs) (by simp), htake, hdrop]
      · have hlt : (buf ++ [r]).length < c := by omega
        rw [if_neg hemit, ih (buf ++ [r]) hlt]
        simp

theorem chunk_records_eq_chunksOf (c : Nat) (hc : 1 ≤ c) (l : List α) :
    chunk_records l c = chunksOf c l := by
  have h := chunkLoop_eq_chunksOf c hc l [] (by simpa using hc)
  simpa [chunk_records] using h

theorem div_shift_helper (a c : Nat) (hc : 0 < c) (h : c ≤ a) :
    a / c = (a - c) / c + 1 := by
  conv_lhs => rw [show a = (a - c) + c by omega]
  rw [Nat.add_div_right _ hc]

theorem chunksOf_length (c : Nat) (hc : 1 ≤ c) (l : List α) :
    (chunksOf c l).length = (l.length + c - 1) / c := by
  induction l using chunksOf.induct c with
  | case1 =>
      rw [chunksOf]
      simp only [List.length_nil]
      rw [Nat.div_eq_of_lt (show 0 + c - 1 < c by omega)]
  | case2 x xs ih =>
      have hmax : max c 1 = c := Nat.max_eq_left hc
      rw [hmax] at ih
      rw [chunksOf, hmax, List.length_cons, ih, List.length_drop, List.length_cons]
      by_cases hle : xs.length + 1 ≤ c
      · have h1 : xs.length + 1 - c = 0 := by omega
        rw [h1]
        rw [Nat.div_eq_of_lt (show 0 + c - 1 < c by omega)]
        have hval : (xs.length + 1 + c - 1) / c = 1 := by
          rw [div_shift_helper _ c (by omega) (by omega),
            Nat.div_eq_of_lt (show xs.length + 1 + c - 1 - c < c by omega)]
        omega
      · have h3 : xs.length + 1 - c + c - 1 = (xs.length - c) + c := by omega
        have h2 : xs.length + 1 + c - 1 = xs.length + c := by omega
        rw [h3, h2, Nat.add_div_right _ (by omega), Nat.add_div_right _ (by omega),
          div_shift_helper xs.length c (by omega) (by omega)]

theorem chunksOf_dropLast (c : Nat) (hc : 1 ≤ c) (l : List α) :
    ∀ ch ∈ (chunksOf c l).dropLast, ch.length = c := by
  induction l using chunksOf.induct c with
  | case1 =>
      rw [(chunksOf_eq_nil_iff c ([] : List α)).mpr rfl]
      intro ch hch
      simp at hch
  | case2 x xs ih =>
      have hmax : max c 1 = c := Nat.max_eq_left hc
      rw [hmax] at ih
      rw [chunksOf, hmax]
      intro ch hch
      by_cases hrest : (x :: xs).drop c = []
      · rw [hrest] at hch
        simp [chunksOf] at hch
      · have hne : chunksOf c ((x :: xs).drop c) ≠ [] := by
          rw [Ne, chunksOf_eq_nil_iff]
          exact hrest
        rw [List.dropLast_cons_of_ne_nil hne] at hch
        rcases List.mem_cons.mp hch with hhd | htl
        · subst hhd
          have hlen : c ≤ (x :: xs).length := by
            by_contra hlt
            push_neg at hlt
            exact hrest (List.drop_eq_nil_of_le (le_of_lt hlt))
          rw [List.length_take, Nat.min_eq_left hlen]
        · exact ih ch htl

theorem chunksOf_getLast_length (c : Nat) (hc : 1 ≤ c) (l : List α) :
    ∀ ch, (chunksOf c l).getLast? = some ch →
      ch.length = if l.length % c = 0 then c else l.length % c := by
  induction l using chunksOf.induct c with
  | case1 =>
      intro ch hch
      rw [(chunksOf_eq_nil_iff c ([] : List α)).mpr rfl] at hch
      simp at hch
  | case2 x xs ih =>
      have hmax : max c 1 = c := Nat.max_eq_left hc
      rw [hmax] at ih
      intro ch hch
      rw [chunksOf_cons_ne c hc (x :: xs) (by simp)] at hch
      by_cases hrest : (x :: xs).drop c = []
      · rw [(chunksOf_eq_nil_iff c _).mpr hrest, List.getLast?_singleton] at hch
        have hch' : ch = (x :: xs).take c := by
          exact (Option.some.inj hch).symm
        have hle : (x :: xs).length ≤ c := by
          by_contra hgt
          push_neg at hgt
          rw [List.drop_eq_nil_iff] at hrest
          omega
        rw [hch', List.take_of_length_le hle]
        rcases Nat.lt_or_ge (x :: xs).length c with hlt | hge
        · rw [if_neg]
          · rw [Nat.mod_eq_of_lt hlt]
          · rw [Nat.mod_eq_of_lt hlt]
            simp
        · have hceq : (x :: xs).length = c := by omega
          rw [hceq]
          simp
      · have hne : chunksOf c ((x :: xs).drop c) ≠ [] := by
          rw [Ne, chunksOf_eq_nil_iff]
          exact hrest
        obtain ⟨y, ys, hys⟩ := List.exists_cons_of_ne_nil hne
        rw [hys, List.getLast?_cons_cons] at hch
        have hge : c ≤ (x :: xs).length := by
          by_contra hlt
          push_neg at hlt
          exact hrest (List.drop_eq_nil_of_le (le_of_lt hlt))
        have := ih ch (by rw [hys]; exact hch)
        rw [List.length_drop, ← Nat.mod_eq_sub_mod hge] at this
        exact this

/-- C6: for every input sequence of R records and every configured
chunk size C > 0, `chunk_records` emits exactly ceil(R / C) chunks,
every chunk except the last contains exactly C records, the last chunk
contains R mod C records when R mod C is nonzero (else C), and
concatenating the chunks in emission order reproduces the input
sequence in its original order. -/
theorem C6_chunker_correct {α : Type} (c : Nat) (hc : 0 < c) (records : List α) :
    (chunk_records records c).length = (records.length + c - 1) / c
  ∧ (∀ ch ∈ (chunk_records records c).dropLast, ch.length = c)
  ∧ (∀ ch, (chunk_records records c).getLast? = some ch →
      ch.length = if records.length % c = 0 then c else records.length % c)
  ∧ (chunk_records records c).flatten = records := by
  have hr := chunk_records_eq_chunksOf c hc records
  refine ⟨?_, ?_, ?_, ?_⟩ <;> rw [hr]
  · exact chunksOf_length c hc records
  · exact chunksOf_dropLast c hc records
  · exact chunksOf_getLast_length c hc records
  · exact chunksOf_flatten c records

/-- Concrete instance of `C6_chunker_correct`: 7 records at chunk size
3 flatten back to the input. -/
theorem C6_chunker_correct_witness :
    (chunk_records [10, 20, 30, 40, 50, 60, 70] 3).flatten = [10, 20, 30, 40, 50, 60, 70] :=
  (C6_chunker_correct 3 (by decide) [10, 20, 30, 40, 50, 60, 70]).2.2.2

/-- C7: classification is a pure function of a record's field-name set;
every record whose key set contains `customer_id` and `email` but
neither `order_id` nor `product_id` is classified `customer`; every
record whose key set contains `order_id`, `product_id` and `quantity`
is classified `order_item`, even when it also contains `customer_id`
and `order_date` (no key-set assumption beyond the three memberships is
needed); records matching none of the four rules are unclassifiable
(`none`). -/
theorem C7_classifier_decision_order :
    (∀ r r' : RawRecord, (∀ k, k ∈ recordKeys r ↔ k ∈ recordKeys r') →
        identify_table_type r = identify_table_type r')
  ∧ (∀ r : RawRecord, "customer_id" ∈ recordKeys r → "email" ∈ recordKeys r →
        "order_id" ∉ recordKeys r → "product_id" ∉ recordKeys r →
        identify_table_type r = some "customer")
  ∧ (∀ r : RawRecord, "order_id" ∈ recordKeys r → "product_id" ∈ recordKeys r →
        "quantity" ∈ recordKeys r → identify_table_type r = some "order_item")
  ∧ (∀ r : RawRecord, ¬ customerRule (recordKeys r) → ¬ productRule (recordKeys r) →
        ¬ orderItemRule (recordKeys r) → ¬ orderRule (recordKeys r) →
        identify_table_type r = none) := by
  refine ⟨?_, ?_, ?_, ?_⟩
  · intro r r' h
    exact identifyKeys_membership_invariant _ _ h
  · intro r h1 h2 h3 h4
    have hcust : customerRule (recordKeys r) := ⟨h1, h2, h3, h4⟩
    simp [identify_table_type, identifyKeys, hcust]
  · intro r h1 h2 h3
    have hcust : ¬ customerRule (recordKeys r) := fun hh => hh.2.2.1 h1
    have hprod : ¬ productRule (recordKeys r) := fun hh => hh.2.2.2 h1
    have hitem : orderItemRule (recordKeys r) := ⟨h1, h2, h3⟩
    simp [identify_table_type, identifyKeys, hcust, hprod, hitem]
  · intro r h1 h2 h3 h4
    simp [identify_table_type, identifyKeys, h1, h2, h3, h4]

/-- Concrete instances of `C7_classifier_decision_order`: a plain
customer record, an order-item-shaped record that also carries
`customer_id` and `order_date`, and an unclassifiable record. -/
theorem C7_classifier_decision_order_witness :
    identify_table_type
        [("customer_id", JVal.jStr "C1"), ("name", JVal.jStr "A"), ("email", JVal.jStr "a@b.c")]
      = some "customer"
  ∧ identify_table_type
        [("order_id", JVal.jStr "O1"), ("product_id", JVal.jStr "P1"), ("quantity", JVal.jNum 1),
         ("customer_id", JVal.jStr "C1"), ("order_date", JVal.jStr "2024-01-01")]
      = some "order_item"
  ∧ identify_table_type [("foo", JVal.jNull)] = none :=
  ⟨C7_classifier_decision_order.2.1 _ (by decide) (by decide) (by decide) (by decide),
   C7_classifier_decision_order.2.2.1 _ (by decide) (by decide) (by decide),
   C7_classifier_decision_order.2.2.2 _ (by decide) (by decide) (by decide) (by decide)⟩

theorem processChunk_of_errors (s : Store) (chunk : List JVal)
    (h : (validate_and_categorize_records chunk).2
        ++ verify_relationships (validate_and_categorize_records chunk).1 s ≠ []) :
    processChunk s chunk =
      ⟨s, 0, 0, 0, 0,
        (validate_and_categorize_records chunk).2
          ++ verify_relationships (validate_and_categorize_records chunk).1 s⟩ := by
  simp only [processChunk]
  rw [if_neg (fun hT => h (List.isEmpty_iff.mp hT))]

theorem processChunk_of_no_errors (s : Store) (chunk : List JVal)
    (h : (validate_and_categorize_records chunk).2
        ++ verify_relationships (validate_and_categorize_records chunk).1 s = []) :
    processChunk s chunk =
      ⟨(load_data_batch (validate_and_categorize_records chunk).1 s).2,
        (load_data_batch (validate_and_categorize_records chunk).1 s).1.1,
        (load_data_batch (validate_and_categorize_records chunk).1 s).1.2.1,
        (load_data_batch (validate_and_categorize_records chunk).1 s).1.2.2.1,
        (load_data_batch (validate_and_categorize_records chunk).1 s).1.2.2.2,
        []⟩ := by
  simp only [processChunk]
  rw [if_pos (List.isEmpty_iff.mpr h), h]

/-- C4: if relationship verification records at least one error for a
chunk, the chunk loop of `upload_file` skips `load_data_batch`, so no
record of that chunk — of any entity kind — is persisted and the store
is unchanged by that chunk. -/
theorem C4_referential_error_blocks_chunk (s : Store) (chunk : List JVal)
    (h : verify_relationships (validate_and_categorize_records chunk).1 s ≠ []) :
    (processChunk s chunk).store = s
  ∧ (processChunk s chunk).customers_created = 0
  ∧ (processChunk s chunk).products_created = 0
  ∧ (processChunk s chunk).orders_created = 0
  ∧ (processChunk s chunk).order_items_created = 0 := by
  have herrs : (validate_and_categorize_records chunk).2
      ++ verify_relationships (validate_and_categorize_records chunk).1 s ≠ [] :=
    fun hcontra => h (List.append_eq_nil.mp hcontra).2
  rw [processChunk_of_errors s chunk herrs]
  exact ⟨rfl, rfl, rfl, rfl, rfl⟩

/-- A chunk holding one order that references the absent customer `CX`. -/
def c4Chunk : List JVal :=
  [JVal.jObj [("order_id", JVal.jStr "O9"), ("customer_id", JVal.jStr "CX"),
    ("order_date", JVal.jStr "2024-01-15"), ("status", JVal.jStr "pending"),
    ("total_amount", JVal.jNum 5)]]

/-- Concrete instance of `C4_referential_error_blocks_chunk`: the
dangling order of `c4Chunk` leaves the empty store untouched. -/
theorem C4_referential_error_blocks_chunk_witness :
    (processChunk emptyStore c4Chunk).store = emptyStore
  ∧ (processChunk emptyStore c4Chunk).customers_created = 0
  ∧ (processChunk emptyStore c4Chunk).products_created = 0
  ∧ (processChunk emptyStore c4Chunk).orders_created = 0
  ∧ (processChunk emptyStore c4Chunk).order_items_created = 0 :=
  C4_referential_error_blocks_chunk emptyStore c4Chunk (by decide)

theorem insertNew_snd_eq_append (key : α → String) (rows : List α) :
    ∀ existing : List α, ∃ extra : List α,
      (insertNew key existing rows).2 = existing ++ extra ∧ ∀ r ∈ extra, r ∈ rows := by
  induction rows with
  | nil =>
      intro ex
      exact ⟨[], by simp [insertNew], by simp⟩
  | cons a rs ih =>
      intro ex
      by_cases hmem : key a ∈ ex.map key
      · obtain ⟨extra, heq, hsub⟩ := ih ex
        refine ⟨extra, ?_, ?_⟩
        · simp only [insertNew, if_pos hmem]
          exact heq
        · intro r hr
          exact List.mem_cons_of_mem a (hsub r hr)
      · obtain ⟨extra, heq, hsub⟩ := ih (ex ++ [a])
        refine ⟨a :: extra, ?_, ?_⟩
        · simp only [insertNew, if_neg hmem]
          rw [heq]
          simp
        · intro r hr
          rcases List.mem_cons.mp hr with h1 | h2
          · exact h1 ▸ List.mem_cons_self a rs
          · exact List.mem_cons_of_mem a (hsub r h2)

theorem insertNew_keys_mono (key : α → String) (rows existing : List α) :
    ∀ k ∈ existing.map key, k ∈ (insertNew key existing rows).2.map key := by
  obtain ⟨extra, heq, _⟩ := insertNew_snd_eq_append key rows existing
  intro k hk
  rw [heq, List.map_append]
  exact List.mem_append_left _ hk

theorem insertNew_covers (key : α → String) (rows : List α) :
    ∀ existing : List α, ∀ r ∈ rows, key r ∈ (insertNew key existing rows).2.map key := by
  induction rows with
  | nil =>
      intro ex r hr
      simp at hr
  | cons a rs ih =>
      intro ex r hr
      by_cases hmem : key a ∈ ex.map key
      · have hred : (insertNew key ex (a :: rs)).2 = (insertNew key ex rs).2 := by
          simp only [insertNew, if_pos hmem]
        rw [hred]
        rcases List.mem_cons.mp hr with h1 | h2
        · subst h1
          exact insertNew_keys_mono key rs ex _ hmem
        · exact ih ex r h2
      · have hred : (insertNew key ex (a :: rs)).2 = (insertNew key (ex ++ [a]) rs).2 := by
          simp only [insertNew, if_neg hmem]
        rw [hred]
        rcases List.mem_cons.mp hr with h1 | h2
        · rw [h1]
          refine insertNew_keys_mono key rs (ex ++ [a]) _ ?_
          simp
        · exact ih (ex ++ [a]) r h2

theorem insertNew_skip_all (key : α → String) (rows : List α) :
    ∀ existing : List α, (∀ r ∈ rows, key r ∈ existing.map key) →
      insertNew key existing rows = (0, existing) := by
  induction rows with
  | nil =>
      intro ex _
      rfl
  | cons a rs ih =>
      intro ex h
      have hmem : key a ∈ ex.map key := h a (List.mem_cons_self a rs)
      simp only [insertNew, if_pos hmem]
      exact ih ex (fun r hr => h r (List.mem_cons_of_mem a hr))

theorem verify_nil_orders (cat : Categorized) (s : Store)
    (h : verify_relationships cat s = []) :
    ∀ o ∈ cat.orders,
      o.customer_id ∈ cat.customers.map (fun c => c.customer_id) ++ custIds s := by
  intro o ho
  simp only [verify_relationships] at h
  obtain ⟨h1, _⟩ := List.append_eq_nil.mp h
  have hfm := (List.filterMap_eq_nil_iff.mp h1) o ho
  by_contra hmem
  rw [if_neg hmem] at hfm
  exact Option.noConfusion hfm

/-- The invariant of C5: every persisted order references a customer
present in the store. -/
def ordersReferenceCustomers (s : Store) : Prop :=
  ∀ o ∈ s.orders, o.customer_id ∈ custIds s

theorem processChunk_preserves_ordersRef (s : Store) (chunk : List JVal)
    (hs : ordersReferenceCustomers s) :
    ordersReferenceCustomers (processChunk s chunk).store := by
  by_cases herr : (validate_and_categorize_records chunk).2
      ++ verify_relationships (validate_and_categorize_records chunk).1 s = []
  · obtain ⟨hcat, hver⟩ := List.append_eq_nil.mp herr
    rw [processChunk_of_no_errors s chunk herr]
    intro o ho
    simp only [load_data_batch, custIds] at ho ⊢
    obtain ⟨extraO, heqO, hsubO⟩ :=
      insertNew_snd_eq_append (fun o : OrderRow => o.order_id)
        (validate_and_categorize_records chunk).1.orders s.orders
    rw [heqO] at ho
    rcases List.mem_append.mp ho with hold | hnew
    · exact insertNew_keys_mono (fun c : CustomerRow => c.customer_id)
        (validate_and_categorize_records chunk).1.customers s.customers _ (hs o hold)
    · have honew := hsubO o hnew
      have hvis := verify_nil_orders (validate_and_categorize_records chunk).1 s hver o honew
      rcases List.mem_append.mp hvis with hin | hstore
      · obtain ⟨c, hc, hkey⟩ := List.mem_map.mp hin
        have hcov : c.customer_id ∈ List.map (fun c : CustomerRow => c.customer_id)
            (insertNew (fun c : CustomerRow => c.customer_id) s.customers
              (validate_and_categorize_records chunk).1.customers).2 :=
          insertNew_covers (fun c : CustomerRow => c.customer_id)
            (validate_and_categorize_records chunk).1.customers s.customers c hc
        rw [hkey] at hcov
        exact hcov
      · exact insertNew_keys_mono (fun c : CustomerRow => c.customer_id)
          (validate_and_categorize_records chunk).1.customers s.customers _ hstore
  · rw [processChunk_of_errors s chunk herr]
    exact hs

/-- C5: the store invariant that every persisted order references an
existing customer is preserved by every run of the chunk loop — orders
are only loaded when verification found their `customer_id` among the
chunk's validated customers or the already-persisted customer keys, and
the chunk's customers are all inserted (or already present) before its
orders. -/
theorem C5_orders_reference_customers (s : Store) (chunks : List (List JVal))
    (hs : ordersReferenceCustomers s) :
    ordersReferenceCustomers (ingestChunks s chunks).store := by
  induction chunks generalizing s with
  | nil => exact hs
  | cons ch rest ih =>
      simp only [ingestChunks]
      exact ih (processChunk s ch).store (processChunk_preserves_ordersRef s ch hs)

/-- A one-chunk file holding a customer and an order referencing it. -/
def c5Chunk : List JVal :=
  [JVal.jObj [("customer_id", JVal.jStr "C1"), ("name", JVal.jStr "Ann"),
     ("email", JVal.jStr "ann@shop.io")],
   JVal.jObj [("order_id", JVal.jStr "O1"), ("customer_id", JVal.jStr "C1"),
     ("order_date", JVal.jStr "2024-01-15"), ("status", JVal.jStr "pending"),
     ("total_amount", JVal.jNum 5)]]

/-- Concrete instance of `C5_orders_reference_customers`: after
ingesting `c5Chunk` from the empty store, every persisted order
references a persisted customer. -/
theorem C5_orders_reference_customers_witness :
    ordersReferenceCustomers (ingestChunks emptyStore [c5Chunk]).store :=
  C5_orders_reference_customers emptyStore [c5Chunk] (by intro o ho; simp [emptyStore] at ho)

theorem dictInsert_keys_mem (r : RawRecord) (k : String) (v : JVal) (k' : String) :
    k' ∈ recordKeys (dictInsert r k v) ↔ k' = k ∨ k' ∈ recordKeys r := by
  induction r with
  | nil => simp [dictInsert, recordKeys]
  | cons p rest ih =>
      obtain ⟨k1, v1⟩ := p
      by_cases hk : k1 = k
      · subst hk
        simp [dictInsert, recordKeys]
      · simp only [dictInsert, if_neg hk, recordKeys, List.map_cons, List.mem_cons] at ih ⊢
        rw [ih]
        tauto

theorem foldl_dictInsert_keys_mem (ps : List (String × JVal)) :
    ∀ (acc : RawRecord) (k : String),
      k ∈ recordKeys (ps.foldl (fun r p => dictInsert r p.1 p.2) acc) ↔
        k ∈ recordKeys acc ∨ k ∈ ps.map Prod.fst := by
  induction ps with
  | nil => simp
  | cons p rest ih =>
      intro acc k
      simp only [List.foldl_cons, List.map_cons, List.mem_cons]
      rw [ih, dictInsert_keys_mem]
      tauto

theorem dictOfPairs_keys_mem (ps : List (String × JVal)) (k : String) :
    k ∈ recordKeys (dictOfPairs ps) ↔ k ∈ ps.map Prod.fst := by
  rw [dictOfPairs, foldl_dictInsert_keys_mem]
  simp [recordKeys]

theorem dictReaderRow_keys (header row : List String) (rec : RawRecord)
    (h : dictReaderRow header row = some rec) :
    ∀ k, k ∈ recordKeys rec ↔ k ∈ header.map pyStrip := by
  unfold dictReaderRow at h
  by_cases hlen : header.length < row.length
  · rw [if_pos hlen] at h
    exact absurd h (by simp)
  · rw [if_neg hlen] at h
    have hrec := Option.some.inj h
    intro k
    rw [← hrec, dictOfPairs_keys_mem, List.map_map]
    have hv : (row.map some
        ++ List.replicate (header.length - row.length) (none : Option String)).length
        = header.length := by
      simp
      omega
    have hz : (header.zip (row.map some
        ++ List.replicate (header.length - row.length) (none : Option String))).map Prod.fst
        = header :=
      List.map_fst_zip _ _ (by rw [hv])
    have hcomp : (Prod.fst ∘ fun p : String × Option String => (pyStrip p.1, cleanVal p.2))
        = pyStrip ∘ Prod.fst := rfl
    rw [hcomp, ← List.map_map, hz]

theorem dictReaderAll_keys (header : List String) :
    ∀ (rows : List (List String)) (recs : List RawRecord),
      dictReaderAll header rows = .ok recs →
      ∀ r ∈ recs, ∀ k, k ∈ recordKeys r ↔ k ∈ header.map pyStrip := by
  intro rows
  induction rows with
  | nil =>
      intro recs h r hr
      simp only [dictReaderAll] at h
      cases h
      simp at hr
  | cons row rest ih =>
      intro recs h r hr
      simp only [dictReaderAll] at h
      by_cases hempty : row.isEmpty
      · rw [if_pos hempty] at h
        exact ih recs h r hr
      · rw [if_neg hempty] at h
        cases hrow : dictReaderRow header row with
        | none =>
            rw [hrow] at h
            exact absurd h (by simp)
        | some r0 =>
            rw [hrow] at h
            cases hrest : dictReaderAll header rest with
            | error e =>
                rw [hrest] at h
                exact absurd h (by simp [Except.map])
            | ok rs' =>
                rw [hrest] at h
                simp only [Except.map] at h
                cases h
                rcases List.mem_cons.mp hr with h1 | h2
                · exact h1 ▸ dictReaderRow_keys header row r0 hrow
                · exact ih rs' hrest r h2

/-- C9: every record successfully decoded from one CSV file has the
same key set — the trimmed header names of the first line (empty cells
are mapped to `None` but keep their key) — so the classifier, a pure
function of the key set, assigns the same result to every row: one CSV
file can never yield rows of two different entity kinds. -/
theorem C9_csv_uniform_key_set (header : List String) (rows : List (List String))
    (recs : List RawRecord) (hok : dictReaderAll header rows = .ok recs) :
    (∀ r ∈ recs, ∀ k, k ∈ recordKeys r ↔ k ∈ header.map pyStrip)
  ∧ (∀ r ∈ recs, ∀ r' ∈ recs, identify_table_type r = identify_table_type r')
  ∧ cleanVal (some "") = JVal.jNull
  ∧ cleanVal none = JVal.jNull := by
  have hkeys := dictReaderAll_keys header rows recs hok
  refine ⟨hkeys, ?_, rfl, rfl⟩
  intro r hr r' hr'
  show identifyKeys (recordKeys r) = identifyKeys (recordKeys r')
  apply identifyKeys_membership_invariant
  intro k
  rw [hkeys r hr k, hkeys r' hr' k]

/-- Concrete instance of `C9_csv_uniform_key_set`: the two decoded
rows of a two-row customer CSV (the second with an empty email cell)
classify alike. -/
theorem C9_csv_uniform_key_set_witness :
    identify_table_type
        [("customer_id", JVal.jStr "C1"), ("name", JVal.jStr "Al"),
         ("email", JVal.jStr "a@b.io")]
      = identify_table_type
          [("customer_id", JVal.jStr "C2"), ("name", JVal.jStr "Bo"),
           ("email", JVal.jNull)] :=
  (C9_csv_uniform_key_set ["customer_id", "name", "email"]
    [["C1", "Al", "a@b.io"], ["C2", "Bo", ""]]
    [[("customer_id", JVal.jStr "C1"), ("name", JVal.jStr "Al"),
      ("email", JVal.jStr "a@b.io")],
     [("customer_id", JVal.jStr "C2"), ("name", JVal.jStr "Bo"),
      ("email", JVal.jNull)]] rfl).2.1
    _ (List.mem_cons_self _ _)
    _ (List.mem_cons_of_mem _ (List.mem_cons_self _ _))

theorem rget_eq_none_of_not_mem (r : RawRecord) (k : String)
    (h : k ∉ recordKeys r) : rget r k = none := by
  induction r with
  | nil => rfl
  | cons p rest ih =>
      obtain ⟨k1, v1⟩ := p
      simp only [recordKeys, List.map_cons, List.mem_cons, not_or] at h
      simp only [rget]
      rw [if_neg (fun hq => h.1 hq.symm)]
      exact ih (by simpa [recordKeys] using h.2)

theorem errList_mem (c : Except FieldError β) (e : FieldError) (h : e ∈ errList c) :
    c = .error e := by
  cases c with
  | ok v => simp [errList] at h
  | error e' =>
      simp only [errList, List.mem_singleton] at h
      rw [h]

theorem checkStr_error_field (f : String) (lo hi : Nat) (v : JVal) (e : FieldError)
    (h : checkStr f lo hi v = .error e) : e.field = f := by
  unfold checkStr at h
  split at h
  · split at h
    · exact Except.noConfusion h
    · cases h
      rfl
  · cases h
    rfl

theorem checkDatetime_error_field (f : String) (v : JVal) (e : FieldError)
    (h : checkDatetime f v = .error e) : e.field = f := by
  unfold checkDatetime at h
  split at h
  · exact Except.noConfusion h
  · cases h
    rfl

theorem checkQGeZero_error_field (f : String) (q : ℚ) (e : FieldError)
    (h : checkQGeZero f q = .error e) : e.field = f := by
  unfold checkQGeZero at h
  split at h
  · exact Except.noConfusion h
  · cases h
    rfl

theorem validateOrder_error_eq (d : OrderData) (es : List FieldError)
    (h : validateOrder d = .error es) :
    es = errList (checkStr "order_id" 1 50 d.order_id)
      ++ errList (checkStr "customer_id" 1 50 d.customer_id)
      ++ errList (checkDatetime "order_date" d.order_date)
      ++ errList (checkStatus d.status)
      ++ errList (checkQGeZero "total_amount" d.total_amount) := by
  unfold validateOrder at h
  cases hc1 : checkStr "order_id" 1 50 d.order_id <;>
    cases hc2 : checkStr "customer_id" 1 50 d.customer_id <;>
      cases hc3 : checkDatetime "order_date" d.order_date <;>
        cases hc4 : checkStatus d.status <;>
          cases hc5 : checkQGeZero "total_amount" d.total_amount <;>
            simp_all [errList]

theorem validateOrder_ok_iff (d : OrderData) :
    (∃ row, validateOrder d = .ok row) ↔
      (∃ v, checkStr "order_id" 1 50 d.order_id = .ok v)
      ∧ (∃ v, checkStr "customer_id" 1 50 d.customer_id = .ok v)
      ∧ (∃ v, checkDatetime "order_date" d.order_date = .ok v)
      ∧ (∃ v, checkStatus d.status = .ok v)
      ∧ (∃ v, checkQGeZero "total_amount" d.total_amount = .ok v) := by
  unfold validateOrder
  cases hc1 : checkStr "order_id" 1 50 d.order_id <;>
    cases hc2 : checkStr "customer_id" 1 50 d.customer_id <;>
      cases hc3 : checkDatetime "order_date" d.order_date <;>
        cases hc4 : checkStatus d.status <;>
          cases hc5 : checkQGeZero "total_amount" d.total_amount <;>
            simp_all

/-- C10: for a record classified as an order whose `status` key is
absent, `prepare_order_data` defaults the status to `"pending"`, which
passes the status checks, so validation reports no error for the
`status` field and the record validates exactly when its remaining
fields satisfy their constraints. -/
theorem C10_missing_status_defaults_pending (r : RawRecord)
    (_hord : identify_table_type r = some "order")
    (hnost : "status" ∉ recordKeys r)
    (d : OrderData) (hprep : prepare_order_data r = .ok d) :
    d.status = JVal.jStr "pending"
  ∧ checkStatus d.status = .ok "pending"
  ∧ (∀ es, validateOrder d = .error es → ∀ e ∈ es, e.field ≠ "status")
  ∧ ((∃ row, validateOrder d = .ok row) ↔
      (∃ v, checkStr "order_id" 1 50 d.order_id = .ok v)
      ∧ (∃ v, checkStr "customer_id" 1 50 d.customer_id = .ok v)
      ∧ (∃ v, checkDatetime "order_date" d.order_date = .ok v)
      ∧ (∃ v, checkQGeZero "total_amount" d.total_amount = .ok v)) := by
  have hget : rget r "status" = none := rget_eq_none_of_not_mem r "status" hnost
  have hstat : d.status = JVal.jStr "pending" := by
    unfold prepare_order_data at hprep
    cases hta : pyFloat (rgetOr r "total_amount" (JVal.jNum 0)) with
    | error e =>
        rw [hta] at hprep
        exact Except.noConfusion hprep
    | ok ta =>
        rw [hta] at hprep
        simp only [Except.bind, pure, Except.pure] at hprep
        cases hprep
        simp [rgetOr, hget]
  have hpass : checkStatus d.status = .ok "pending" := by
    rw [hstat]
    rfl
  refine ⟨hstat, hpass, ?_, ?_⟩
  · intro es hes e he
    have heq := validateOrder_error_eq d es hes
    rw [heq] at he
    rcases List.mem_append.mp he with he4 | he5
    · rcases List.mem_append.mp he4 with he3 | he4
      · rcases List.mem_append.mp he3 with he2 | he3
        · rcases List.mem_append.mp he2 with he1 | he2
          · rw [checkStr_error_field _ _ _ _ _ (errList_mem _ _ he1)]
            decide
          · rw [checkStr_error_field _ _ _ _ _ (errList_mem _ _ he2)]
            decide
        · rw [checkDatetime_error_field _ _ _ (errList_mem _ _ he3)]
          decide
      · rw [hpass] at he4
        simp [errList] at he4
    · rw [checkQGeZero_error_field _ _ _ (errList_mem _ _ he5)]
      decide
  · rw [validateOrder_ok_iff]
    constructor
    · rintro ⟨h1, h2, h3, _, h5⟩
      exact ⟨h1, h2, h3, h5⟩
    · rintro ⟨h1, h2, h3, h5⟩
      exact ⟨h1, h2, h3, ⟨"pending", hpass⟩, h5⟩

/-- An order record with no `status` field. -/
def c10Record : RawRecord :=
  [("order_id", JVal.jStr "O7"), ("customer_id", JVal.jStr "C7"),
   ("order_date", JVal.jStr "2024-02-29 08:00:00"), ("total_amount", JVal.jNum 12)]

/-- Concrete instance of `C10_missing_status_defaults_pending`: the
status-less order of `c10Record` gets status `"pending"` and passes the
status check. -/
theorem C10_missing_status_defaults_pending_witness :
    checkStatus (JVal.jStr "pending") = .ok "pending" :=
  (C10_missing_status_defaults_pending c10Record (by decide) (by decide)
    { order_id := JVal.jStr "O7", customer_id := JVal.jStr "C7",
      order_date := JVal.jDate ⟨2024, 2, 29, 8, 0, 0⟩,
      status := JVal.jStr "pending", total_amount := 12 } rfl).2.1

theorem flatMap_nil_iff (f : α → List β) (l : List α) :
    l.flatMap f = [] ↔ ∀ a ∈ l, f a = [] := by
  induction l with
  | nil => simp
  | cons a rest ih =>
      simp only [List.flatMap_cons, List.append_eq_nil, ih, List.mem_cons]
      constructor
      · rintro ⟨h1, h2⟩ b hb
        rcases hb with hb | hb
        · exact hb ▸ h1
        · exact h2 b hb
      · intro h
        exact ⟨h a (Or.inl rfl), fun b hb => h b (Or.inr hb)⟩

/-- Key-set inclusion between stores: every natural key present in `u`
is present in `t`. -/
def storeGE (t u : Store) : Prop :=
  (∀ k ∈ custIds u, k ∈ custIds t)
  ∧ (∀ k ∈ prodIds u, k ∈ prodIds t)
  ∧ (∀ k ∈ ordIds u, k ∈ ordIds t)

theorem storeGE_refl (s : Store) : storeGE s s :=
  ⟨fun _ h => h, fun _ h => h, fun _ h => h⟩

theorem storeGE_trans {t u v : Store} (h1 : storeGE t u) (h2 : storeGE u v) :
    storeGE t v :=
  ⟨fun k hk => h1.1 k (h2.1 k hk), fun k hk => h1.2.1 k (h2.2.1 k hk),
   fun k hk => h1.2.2 k (h2.2.2 k hk)⟩

theorem verify_nil_iff (cat : Categorized) (s : Store) :
    verify_relationships cat s = [] ↔
      (∀ o ∈ cat.orders,
        o.customer_id ∈ cat.customers.map (fun c => c.customer_id) ++ custIds s)
      ∧ (∀ it ∈ cat.order_items,
          it.order_id ∈ cat.orders.map (fun o => o.order_id) ++ ordIds s
          ∧ it.product_id ∈ cat.products.map (fun p => p.product_id) ++ prodIds s) := by
  unfold verify_relationships
  rw [List.append_eq_nil]
  rw [List.filterMap_eq_nil_iff, flatMap_nil_iff]
  constructor
  · rintro ⟨h1, h2⟩
    constructor
    · intro o ho
      have hfm := h1 o ho
      by_contra hmem
      rw [if_neg hmem] at hfm
      exact Option.noConfusion hfm
    · intro it hit
      have hg := h2 it hit
      rw [List.append_eq_nil] at hg
      constructor
      · by_contra hmem
        rw [if_neg hmem] at hg
        exact List.noConfusion hg.1
      · by_contra hmem
        rw [if_neg hmem] at hg
        exact List.noConfusion hg.2
  · rintro ⟨h1, h2⟩
    constructor
    · intro o ho
      rw [if_pos (h1 o ho)]
    · intro it hit
      rw [if_pos (h2 it hit).1, if_pos (h2 it hit).2]
      rfl

theorem verify_relationships_monotone (cat : Categorized) (s t : Store)
    (hge : storeGE t s) (h : verify_relationships cat s = []) :
    verify_relationships cat t = [] := by
  rw [verify_nil_iff] at h ⊢
  obtain ⟨h1, h2⟩ := h
  constructor
  · intro o ho
    rcases List.mem_append.mp (h1 o ho) with hin | hst
    · exact List.mem_append_left _ hin
    · exact List.mem_append_right _ (hge.1 _ hst)
  · intro it hit
    obtain ⟨ha, hb⟩ := h2 it hit
    constructor
    · rcases List.mem_append.mp ha with hin | hst
      · exact List.mem_append_left _ hin
      · exact List.mem_append_right _ (hge.2.2 _ hst)
    · rcases List.mem_append.mp hb with hin | hst
      · exact List.mem_append_left _ hin
      · exact List.mem_append_right _ (hge.2.1 _ hst)

theorem load_data_batch_custIds (cat : Categorized) (s : Store) :
    custIds (load_data_batch cat s).2
      = ((insertNew (fun c : CustomerRow => c.customer_id) s.customers cat.customers).2).map
          (fun c : CustomerRow => c.customer_id) := rfl

theorem load_data_batch_prodIds (cat : Categorized) (s : Store) :
    prodIds (load_data_batch cat s).2
      = ((insertNew (fun p : ProductRow => p.product_id) s.products cat.products).2).map
          (fun p : ProductRow => p.product_id) := rfl

theorem load_data_batch_ordIds (cat : Categorized) (s : Store) :
    ordIds (load_data_batch cat s).2
      = ((insertNew (fun o : OrderRow => o.order_id) s.orders cat.orders).2).map
          (fun o : OrderRow => o.order_id) := rfl

theorem processChunk_store_ge (s : Store) (ch : List JVal) :
    storeGE (processChunk s ch).store s := by
  by_cases h : (validate_and_categorize_records ch).2
      ++ verify_relationships (validate_and_categorize_records ch).1 s = []
  · rw [processChunk_of_no_errors s ch h]
    refine ⟨?_, ?_, ?_⟩
    · intro k hk
      rw [load_data_batch_custIds]
      exact insertNew_keys_mono _ _ _ k hk
    · intro k hk
      rw [load_data_batch_prodIds]
      exact insertNew_keys_mono _ _ _ k hk
    · intro k hk
      rw [load_data_batch_ordIds]
      exact insertNew_keys_mono _ _ _ k hk
  · rw [processChunk_of_errors s ch h]
    exact storeGE_refl s

theorem ingestChunks_store_ge (chs : List (List JVal)) :
    ∀ s : Store, storeGE (ingestChunks s chs).store s := by
  induction chs with
  | nil => intro s; exact storeGE_refl s
  | cons ch rest ih =>
      intro s
      simp only [ingestChunks]
      exact storeGE_trans (ih (processChunk s ch).store) (processChunk_store_ge s ch)

theorem processChunk_no_errors_covers (s : Store) (ch : List JVal)
    (h : (validate_and_categorize_records ch).2
        ++ verify_relationships (validate_and_categorize_records ch).1 s = []) :
    (∀ c ∈ (validate_and_categorize_records ch).1.customers,
        c.customer_id ∈ custIds (processChunk s ch).store)
  ∧ (∀ p ∈ (validate_and_categorize_records ch).1.products,
        p.product_id ∈ prodIds (processChunk s ch).store)
  ∧ (∀ o ∈ (validate_and_categorize_records ch).1.orders,
        o.order_id ∈ ordIds (processChunk s ch).store) := by
  rw [processChunk_of_no_errors s ch h]
  refine ⟨?_, ?_, ?_⟩
  · intro c hc
    rw [load_data_batch_custIds]
    exact insertNew_covers (fun c : CustomerRow => c.customer_id) _ s.customers c hc
  · intro p hp
    rw [load_data_batch_prodIds]
    exact insertNew_covers (fun p : ProductRow => p.product_id) _ s.products p hp
  · intro o ho
    rw [load_data_batch_ordIds]
    exact insertNew_covers (fun o : OrderRow => o.order_id) _ s.orders o ho

theorem load_data_batch_all_present (cat : Categorized) (s : Store)
    (hc : ∀ c ∈ cat.customers, c.customer_id ∈ custIds s)
    (hp : ∀ p ∈ cat.products, p.product_id ∈ prodIds s)
    (ho : ∀ o ∈ cat.orders, o.order_id ∈ ordIds s) :
    load_data_batch cat s
      = ((0, 0, 0, cat.order_items.length),
         ⟨s.customers, s.products, s.orders, s.order_items ++ cat.order_items⟩) := by
  simp only [load_data_batch]
  rw [insertNew_skip_all _ _ _ hc, insertNew_skip_all _ _ _ hp, insertNew_skip_all _ _ _ ho]

theorem processChunk_second_run (t : Store) (ch : List JVal)
    (hcat : (validate_and_categorize_records ch).2 = [])
    (hver : verify_relationships (validate_and_categorize_records ch).1 t = [])
    (hc : ∀ c ∈ (validate_and_categorize_records ch).1.customers, c.customer_id ∈ custIds t)
    (hp : ∀ p ∈ (validate_and_categorize_records ch).1.products, p.product_id ∈ prodIds t)
    (ho : ∀ o ∈ (validate_and_categorize_records ch).1.orders, o.order_id ∈ ordIds t) :
    processChunk t ch
      = ⟨⟨t.customers, t.products, t.orders,
          t.order_items ++ (validate_and_categorize_records ch).1.order_items⟩,
         0, 0, 0, (validate_and_categorize_records ch).1.order_items.length, []⟩ := by
  have herr : (validate_and_categorize_records ch).2
      ++ verify_relationships (validate_and_categorize_records ch).1 t = [] := by
    rw [hcat, hver]
    rfl
  rw [processChunk_of_no_errors t ch herr, load_data_batch_all_present _ _ hc hp ho]

theorem processChunk_errors_eq (s : Store) (ch : List JVal) :
    (processChunk s ch).errors = (validate_and_categorize_records ch).2
      ++ verify_relationships (validate_and_categorize_records ch).1 s := by
  by_cases h : (validate_and_categorize_records ch).2
      ++ verify_relationships (validate_and_categorize_records ch).1 s = []
  · rw [processChunk_of_no_errors s ch h, h]
  · rw [processChunk_of_errors s ch h]

theorem processChunk_no_errors_items (s : Store) (ch : List JVal)
    (h : (validate_and_categorize_records ch).2
        ++ verify_relationships (validate_and_categorize_records ch).1 s = []) :
    (processChunk s ch).order_items_created
      = (validate_and_categorize_records ch).1.order_items.length := by
  rw [processChunk_of_no_errors s ch h]
  rfl

theorem ingest_twice_aux (chs : List (List JVal)) :
    ∀ s t : Store, (ingestChunks s chs).errors = [] →
      storeGE t (ingestChunks s chs).store →
      (ingestChunks t chs).errors = []
      ∧ (ingestChunks t chs).customers_created = 0
      ∧ (ingestChunks t chs).products_created = 0
      ∧ (ingestChunks t chs).orders_created = 0
      ∧ (ingestChunks t chs).order_items_created = (ingestChunks s chs).order_items_created
      ∧ storeGE (ingestChunks t chs).store (ingestChunks s chs).store := by
  induction chs with
  | nil =>
      intro s t herr hge
      exact ⟨rfl, rfl, rfl, rfl, rfl, hge⟩
  | cons ch rest ih =>
      intro s t herr hge
      have herr' : (processChunk s ch).errors
          ++ (ingestChunks (processChunk s ch).store rest).errors = [] := by
        simpa only [ingestChunks] using herr
      obtain ⟨h1, h2⟩ := List.append_eq_nil.mp herr'
      have hcon : (validate_and_categorize_records ch).2
          ++ verify_relationships (validate_and_categorize_records ch).1 s = [] := by
        rw [← processChunk_errors_eq]
        exact h1
      obtain ⟨hcat, hver⟩ := List.append_eq_nil.mp hcon
      have hU : storeGE t (ingestChunks (processChunk s ch).store rest).store := by
        simpa only [ingestChunks] using hge
      have hge_tr1 : storeGE t (processChunk s ch).store :=
        storeGE_trans hU (ingestChunks_store_ge rest _)
      have hge_ts : storeGE t s :=
        storeGE_trans hge_tr1 (processChunk_store_ge s ch)
      have hver_t : verify_relationships (validate_and_categorize_records ch).1 t = [] :=
        verify_relationships_monotone _ s t hge_ts hver
      obtain ⟨hcc, hpc, hoc⟩ := processChunk_no_errors_covers s ch hcon
      have hc_t : ∀ c ∈ (validate_and_categorize_records ch).1.customers,
          c.customer_id ∈ custIds t :=
        fun c hc => hge_tr1.1 _ (hcc c hc)
      have hp_t : ∀ p ∈ (validate_and_categorize_records ch).1.products,
          p.product_id ∈ prodIds t :=
        fun p hp => hge_tr1.2.1 _ (hpc p hp)
      have ho_t : ∀ o ∈ (validate_and_categorize_records ch).1.orders,
          o.order_id ∈ ordIds t :=
        fun o ho => hge_tr1.2.2 _ (hoc o ho)
      have hstep := processChunk_second_run t ch hcat hver_t hc_t hp_t ho_t
      have hge_t' : storeGE
          (⟨t.customers, t.products, t.orders,
            t.order_items ++ (validate_and_categorize_records ch).1.order_items⟩ : Store)
          (ingestChunks (processChunk s ch).store rest).store := hU
      have hrest := ih (processChunk s ch).store
        ⟨t.customers, t.products, t.orders,
          t.order_items ++ (validate_and_categorize_records ch).1.order_items⟩ h2 hge_t'
      have hitems1 := processChunk_no_errors_items s ch hcon
      refine ⟨?_, ?_, ?_, ?_, ?_, ?_⟩ <;> simp only [ingestChunks, hstep]
      · rw [List.nil_append, hrest.1]
      · rw [hrest.2.1]
      · rw [hrest.2.2.1]
      · rw [hrest.2.2.2.1]
      · rw [hrest.2.2.2.2.1, hitems1]
      · exact hrest.2.2.2.2.2

/-- Scenario A of the spec: a CSV with three customer rows, the second
carrying the invalid email `not-an-email`. -/
def scenarioACsv : String :=
  "customer_id,name,email\nC1,Al,al@ex.io\nC2,Bo,not-an-email\nC3,Ca,ca@ex.io"

/-- The decoded records of `scenarioACsv`, as `upload_file` feeds them
to the loader. -/
def scenarioARecords : List JVal :=
  match parse_csv_streaming scenarioACsv with
  | .ok rs => rs.map JVal.jObj
  | .error _ => []

/-- C2 counterexample: on Scenario A the pipeline reports the single
row error but persists nothing — `customers_created` is 0, not the
claimed 2 — because `upload_file` calls `load_data_batch` only when
`loader.errors` is empty (`upload.py:72`), so one row's validation
failure blocks its valid siblings. -/
theorem C2_counterexample :
    (ingest emptyStore scenarioARecords).errors
      = ["Row 2: Validation error - email: value is not a valid email address"]
  ∧ (ingest emptyStore scenarioARecords).customers_created = 0
  ∧ (ingest emptyStore scenarioARecords).store = emptyStore := by
  refine ⟨by decide, by decide, rfl⟩

/-- C2 amended: for the single-chunk CSV input of 3 customer rows where
exactly one row fails email validation, ingestion persists nothing —
customers_created = 0 — and reports exactly 1 error naming the
offending row; in general a row's classification or validation failure
prevents persistence of every row of its chunk (the chunk is persisted
only when its error list is empty), while other chunks are unaffected. -/
theorem C2_validation_error_blocks_chunk :
    ((ingest emptyStore scenarioARecords).errors
        = ["Row 2: Validation error - email: value is not a valid email address"]
      ∧ (ingest emptyStore scenarioARecords).customers_created = 0
      ∧ (ingest emptyStore scenarioARecords).store = emptyStore)
  ∧ (∀ (s : Store) (chunk : List JVal),
      (validate_and_categorize_records chunk).2 ≠ [] →
      (processChunk s chunk).store = s
      ∧ (processChunk s chunk).customers_created = 0
      ∧ (processChunk s chunk).products_created = 0
      ∧ (processChunk s chunk).orders_created = 0
      ∧ (processChunk s chunk).order_items_created = 0) := by
  constructor
  · exact ⟨by decide, by decide, rfl⟩
  · intro s chunk h
    have herrs : (validate_and_categorize_records chunk).2
        ++ verify_relationships (validate_and_categorize_records chunk).1 s ≠ [] :=
      fun hc => h (List.append_eq_nil.mp hc).1
    rw [processChunk_of_errors s chunk herrs]
    exact ⟨rfl, rfl, rfl, rfl, rfl⟩

/-- Concrete instance of the general part of
`C2_validation_error_blocks_chunk`, at the Scenario A chunk itself. -/
theorem C2_validation_error_blocks_chunk_witness :
    (processChunk emptyStore scenarioARecords).store = emptyStore
  ∧ (processChunk emptyStore scenarioARecords).customers_created = 0
  ∧ (processChunk emptyStore scenarioARecords).products_created = 0
  ∧ (processChunk emptyStore scenarioARecords).orders_created = 0
  ∧ (processChunk emptyStore scenarioARecords).order_items_created = 0 :=
  C2_validation_error_blocks_chunk.2 emptyStore scenarioARecords
    (by intro h; exact absurd (congrArg List.length h) (by decide))

/-- A valid mixed file: one customer, one product, one order
referencing the customer, one order item referencing the order and the
product (all rows classify, validate and reference-check). -/
def validMixedRecords : List JVal :=
  [JVal.jObj [("customer_id", JVal.jStr "C1"), ("name", JVal.jStr "Al"),
     ("email", JVal.jStr "al@ex.io")],
   JVal.jObj [("product_id", JVal.jStr "P1"), ("name", JVal.jStr "Pen"),
     ("price", JVal.jNum 5)],
   JVal.jObj [("order_id", JVal.jStr "O1"), ("customer_id", JVal.jStr "C1"),
     ("order_date", JVal.jStr "2024-01-15 10:30:00"), ("status", JVal.jStr "pending"),
     ("total_amount", JVal.jNum 5)],
   JVal.jObj [("order_id", JVal.jStr "O1"), ("product_id", JVal.jStr "P1"),
     ("quantity", JVal.jNum 1), ("unit_price", JVal.jNum 5),
     ("subtotal", JVal.jNum 5)]]

/-- C1 counterexample: ingesting the valid file `validMixedRecords`
twice yields created-counts of 1 per kind and zero errors on the first
run, zero errors on the second run — but `order_items_created` is 1
again on the second run, not the claimed 0, because `load_data_batch`
inserts order items without any existence check
(`data_loader.py:279-289`). -/
theorem C1_counterexample :
    (ingest emptyStore validMixedRecords).customers_created = 1
  ∧ (ingest emptyStore validMixedRecords).products_created = 1
  ∧ (ingest emptyStore validMixedRecords).orders_created = 1
  ∧ (ingest emptyStore validMixedRecords).order_items_created = 1
  ∧ (ingest emptyStore validMixedRecords).errors = []
  ∧ (ingest (ingest emptyStore validMixedRecords).store validMixedRecords).errors = []
  ∧ (ingest (ingest emptyStore validMixedRecords).store validMixedRecords).customers_created = 0
  ∧ (ingest (ingest emptyStore validMixedRecords).store validMixedRecords).products_created = 0
  ∧ (ingest (ingest emptyStore validMixedRecords).store validMixedRecords).orders_created = 0
  ∧ (ingest (ingest emptyStore validMixedRecords).store validMixedRecords).order_items_created
      = 1 := by
  have h1 : (ingest emptyStore validMixedRecords).errors = [] := by decide
  have haux := ingest_twice_aux (chunk_records validMixedRecords CHUNK_SIZE) emptyStore
    (ingest emptyStore validMixedRecords).store h1 (storeGE_refl _)
  exact ⟨by decide, by decide, by decide, by decide, h1, haux.1,
    by decide, by decide, by decide, by decide⟩

/-- C1 amended: for every starting store and record sequence whose
ingestion reports zero errors, re-ingesting the same records yields
zero errors and created-counts of 0 for customers, products and orders
(rows whose natural key already exists are skipped, not errors), while
`order_items_created` equals the first run's count again — order items
carry no existence check and are re-inserted. -/
theorem C1_reingest_idempotent_except_order_items (s : Store) (records : List JVal)
    (h : (ingest s records).errors = []) :
    (ingest (ingest s records).store records).errors = []
  ∧ (ingest (ingest s records).store records).customers_created = 0
  ∧ (ingest (ingest s records).store records).products_created = 0
  ∧ (ingest (ingest s records).store records).orders_created = 0
  ∧ (ingest (ingest s records).store records).order_items_created
      = (ingest s records).order_items_created := by
  have haux := ingest_twice_aux (chunk_records records CHUNK_SIZE) s
    (ingest s records).store h (storeGE_refl _)
  exact ⟨haux.1, haux.2.1, haux.2.2.1, haux.2.2.2.1, haux.2.2.2.2.1⟩

/-- Concrete instance of `C1_reingest_idempotent_except_order_items`
at the valid mixed file. -/
theorem C1_reingest_idempotent_except_order_items_witness :
    (ingest (ingest emptyStore validMixedRecords).store validMixedRecords).errors = []
  ∧ (ingest (ingest emptyStore validMixedRecords).store validMixedRecords).customers_created = 0
  ∧ (ingest (ingest emptyStore validMixedRecords).store validMixedRecords).products_created = 0
  ∧ (ingest (ingest emptyStore validMixedRecords).store validMixedRecords).orders_created = 0
  ∧ (ingest (ingest emptyStore validMixedRecords).store validMixedRecords).order_items_created
      = (ingest emptyStore validMixedRecords).order_items_created :=
  C1_reingest_idempotent_except_order_items emptyStore validMixedRecords (by decide)

/-- A two-line `.json` payload: a JSON object, then the bare number 42
— a line that is valid JSON but not a JSON object. -/
def ndjsonNumberLine : String := "\x7b\"a\": 1\x7d\n42"

/-- C8 counterexample: the full payload of `ndjsonNumberLine` does not
parse as a single JSON value, its second non-blank line is not a JSON
object, and yet the decode succeeds, yielding the number as a record —
it does not fail with the `Invalid JSON line` (`MalformedInput`) error,
because the NDJSON fallback accepts any JSON value per line. -/
theorem C8_counterexample :
    jsonParse (pyStrip ndjsonNumberLine) = .error "Extra data"
  ∧ jsonParse "42" = .ok (JVal.jNum 42)
  ∧ (∀ fs, jsonParse "42" ≠ .ok (JVal.jObj fs))
  ∧ parse_json_streaming ndjsonNumberLine
      = .ok [JVal.jObj [("a", JVal.jNum 1)], JVal.jNum 42] := by
  refine ⟨rfl, rfl, ?_, rfl⟩
  intro fs h
  rw [show jsonParse "42" = .ok (JVal.jNum 42) from rfl] at h
  injection h with h2
  exact JVal.noConfusion h2

theorem ndjsonDecode_first_bad (bad : String) (post : List String)
    (hbadne : pyStrip bad ≠ "") (hbad : ∀ v, jsonParse (pyStrip bad) ≠ .ok v) :
    ∀ pre : List String,
      (∀ l ∈ pre, pyStrip l = "" ∨ ∃ v, jsonParse (pyStrip l) = .ok v) →
      ∃ e, ndjsonDecode (pre ++ bad :: post)
        = .error ("Invalid JSON line: " ++ strTake 50 (pyStrip bad) ++ "... Error: " ++ e) := by
  intro pre
  induction pre with
  | nil =>
      intro _
      simp only [List.nil_append, ndjsonDecode]
      rw [if_neg hbadne]
      cases hjp : jsonParse (pyStrip bad) with
      | ok v => exact absurd hjp (hbad v)
      | error e => exact ⟨e, rfl⟩
  | cons l pre' ih =>
      intro hpre
      obtain ⟨e, he⟩ := ih (fun l' hl' => hpre l' (List.mem_cons_of_mem l hl'))
      simp only [List.cons_append, ndjsonDecode]
      by_cases hbl : pyStrip l = ""
      · rw [if_pos hbl]
        exact ⟨e, he⟩
      · rw [if_neg hbl]
        rcases hpre l (List.mem_cons_self l pre') with hblank | ⟨v, hv⟩
        · exact absurd hblank hbl
        · refine ⟨e, ?_⟩
          simp only [hv]
          show Except.map (fun vs => v :: vs) (ndjsonDecode (pre' ++ bad :: post))
              = Except.error ("Invalid JSON line: " ++ strTake 50 (pyStrip bad) ++ "... Error: " ++ e)
          rw [he]
          rfl

/-- C8 amended: for every `.json` payload whose full text does not
parse as a single JSON value, if the stripped payload's lines consist
of blank-or-parseable lines up to a first line that is not parseable as
JSON at all, the decode fails with the `Invalid JSON line`
(`MalformedInput`) error naming that line's first 50 characters and the
parse error, and yields no records past it; a non-blank line holding
any parseable JSON value — object or not — is accepted and emitted
rather than failing the decode. -/
theorem C8_first_unparseable_line_fails_decode (content : String)
    (htop : ∀ v, jsonParse (pyStrip content) ≠ .ok v)
    (pre : List String) (bad : String) (post : List String)
    (hsplit : strSplitOnChar '\n' (pyStrip content) = pre ++ bad :: post)
    (hpre : ∀ l ∈ pre, pyStrip l = "" ∨ ∃ v, jsonParse (pyStrip l) = .ok v)
    (hbadne : pyStrip bad ≠ "")
    (hbad : ∀ v, jsonParse (pyStrip bad) ≠ .ok v) :
    ∃ e, parse_json_streaming content
      = .error ("Invalid JSON line: " ++ strTake 50 (pyStrip bad) ++ "... Error: " ++ e) := by
  have hjp : ∃ e0, jsonParse (pyStrip content) = .error e0 := by
    cases hcase : jsonParse (pyStrip content) with
    | ok v => exact absurd hcase (htop v)
    | error e0 => exact ⟨e0, rfl⟩
  obtain ⟨e0, he0⟩ := hjp
  simp only [parse_json_streaming, he0, hsplit]
  exact ndjsonDecode_first_bad bad post hbadne hbad pre hpre

/-- Concrete instance of `C8_first_unparseable_line_fails_decode`: an
object line followed by the unparseable line `notjson`. -/
theorem C8_first_unparseable_line_fails_decode_witness :
    ∃ e, parse_json_streaming "\x7b\"a\": 1\x7d\nnotjson"
      = .error ("Invalid JSON line: " ++ strTake 50 (pyStrip "notjson") ++ "... Error: " ++ e) :=
  C8_first_unparseable_line_fails_decode "\x7b\"a\": 1\x7d\nnotjson"
    (fun v h => by
      rw [show jsonParse (pyStrip "\x7b\"a\": 1\x7d\nnotjson") = .error "Extra data" from rfl] at h
      exact Except.noConfusion h)
    ["\x7b\"a\": 1\x7d"] "notjson" []
    rfl
    (fun l hl => by
      rw [List.mem_singleton] at hl
      subst hl
      exact Or.inr ⟨JVal.jObj [("a", JVal.jNum 1)], rfl⟩)
    (by decide)
    (fun v h => by
      rw [show jsonParse (pyStrip "notjson") = .error "Expecting value" from rfl] at h
      exact Except.noConfusion h)

/-- C3: the code-level behaviour at a failing input.  `upload_file`
aggregates `loader.success_rows` and `loader.skipped_rows` after every
chunk (`upload.py:84-85`), but `DataLoaderService` assigns only
`session` and `errors` (`data_loader.py:20-22`), so the read raises
`AttributeError`: every upload with at least one record — here a
supported-extension CSV with one valid customer row — ends in the
HTTP-500 handler instead of producing the aggregated result object,
contradicting the claim that `UnsupportedFormat` is the only condition
without a result summary. -/
theorem C3_missing_success_rows_attribute :
    uploadFile "customers.csv" "customer_id,name,email\nC1,Al,al@ex.io" emptyStore
      = .error (.internalError
          "Error processing file: 'DataLoaderService' object has no attribute 'success_rows'")
  ∧ (∀ (s : Store) (ch : List JVal) (rest : List (List JVal)),
      uploadLoop s (ch :: rest)
        = .error "'DataLoaderService' object has no attribute 'success_rows'")
  ∧ uploadFile "data.txt" "" emptyStore
      = .error (.badRequest "Unsupported file type. Only CSV and JSON are supported.") :=
  ⟨rfl, fun _ _ _ => rfl, rfl⟩
